import Mathlib

/-!
Shallow embedding of the diversion-analytics pipeline:
normalization (schema + `normalizeRow`/`normalizeRows`), filtering
(`applyFilters`), and aggregation (`calculateScorecards`, chart/table
builders, `buildDashboardModel`).

Modelling conventions:
* JavaScript numbers are modelled by `JSNum`: NaN, +Infinity, -Infinity, or an
  exact rational.  IEEE-754 rounding of in-range values is not modelled (values
  are kept exact); overflow of decimal literals to ±Infinity is modelled at the
  double round-to-infinity threshold 2^1024 - 2^970.
* `undefined` is modelled as `Option.none`; `null`, booleans, strings, numbers
  and other objects are the constructors of `JSValue`.
* Dates are modelled in a fixed UTC-equivalent timezone as epoch milliseconds
  (`Int`).  Local-time DST transitions and non-UTC offsets are outside the
  model; the implementation-defined "native" `Date` string parser is modelled
  as the strict ISO-8601 subset (the mandated Date Time String Format),
  failing on anything else.
* JavaScript `Map` / `Set` are modelled as association lists / lists that keep
  first-insertion order; `Array.prototype.sort` (a stable sort) is modelled by
  a stable structural insertion sort over the same comparator.
-/

/-- JavaScript number: NaN, +Infinity, -Infinity, or a (modelled-exact)
finite value. -/
inductive JSNum where
  | nan : JSNum
  | inf : JSNum
  | negInf : JSNum
  | finite : ℚ → JSNum
deriving DecidableEq, Repr

/-- True exactly on finite JavaScript numbers. -/
def JSNum.isFinite : JSNum → Bool
  | .finite _ => true
  | _ => false

/-- JavaScript `<` on numbers (false whenever either side is NaN). -/
def JSNum.lt : JSNum → JSNum → Bool
  | .nan, _ => false
  | _, .nan => false
  | .inf, _ => false
  | .negInf, .negInf => false
  | .negInf, _ => true
  | .finite _, .inf => true
  | .finite _, .negInf => false
  | .finite a, .finite b => decide (a < b)

/-- JavaScript `<=` on numbers (false whenever either side is NaN). -/
def JSNum.le : JSNum → JSNum → Bool
  | .nan, _ => false
  | _, .nan => false
  | .negInf, _ => true
  | _, .negInf => false
  | _, .inf => true
  | .inf, _ => false
  | .finite a, .finite b => decide (a ≤ b)

/-- JavaScript `Math.abs`. -/
def JSNum.abs : JSNum → JSNum
  | .nan => .nan
  | .inf => .inf
  | .negInf => .inf
  | .finite q => .finite |q|

/-- JavaScript `+` on numbers. -/
def JSNum.add : JSNum → JSNum → JSNum
  | .nan, _ => .nan
  | _, .nan => .nan
  | .inf, .negInf => .nan
  | .negInf, .inf => .nan
  | .inf, _ => .inf
  | _, .inf => .inf
  | .negInf, _ => .negInf
  | _, .negInf => .negInf
  | .finite a, .finite b => .finite (a + b)

/-- JavaScript division of a number by a (non-negative integer) count, as used
for the averages in the aggregation layer. -/
def JSNum.divNat : JSNum → Nat → JSNum
  | .nan, _ => .nan
  | .inf, _ => .inf
  | .negInf, _ => .negInf
  | .finite q, 0 => if q = 0 then .nan else if 0 < q then .inf else .negInf
  | .finite q, (n + 1) => .finite (q / ((n : ℚ) + 1))

/-- JavaScript `Math.max` of two numbers (NaN-absorbing). -/
def JSNum.max2 : JSNum → JSNum → JSNum
  | .nan, _ => .nan
  | _, .nan => .nan
  | .inf, _ => .inf
  | _, .inf => .inf
  | .negInf, b => b
  | a, .negInf => a
  | .finite a, .finite b => .finite (max a b)

/-- JavaScript value as it can appear in a raw spreadsheet row: string, number,
null, boolean, or some other (non-primitive) object.  `undefined` / an absent
key is modelled as `Option.none` around `JSValue`. -/
inductive JSValue where
  | str : String → JSValue
  | num : JSNum → JSValue
  | jsNull : JSValue
  | boolV : Bool → JSValue
  | objV : JSValue
deriving DecidableEq, Repr

/-- Whitespace for JavaScript `trim` and regex `\s` (ASCII subset; the exotic
Unicode space characters are not modelled). -/
def isJSWhitespace (c : Char) : Bool :=
  c = ' ' || c = '\t' || c = '\n' || c = '\r' || c = '\x0b' || c = '\x0c'

/-- JavaScript `String.prototype.trim`. -/
def jsTrim (s : String) : String :=
  ⟨((s.data.dropWhile isJSWhitespace).reverse.dropWhile isJSWhitespace).reverse⟩

/-- Numeric value of a list of ASCII digit characters. -/
def natOfDigits (ds : List Char) : Nat :=
  ds.foldl (fun n c => n * 10 + (c.toNat - 48)) 0

/-- Exponent digits of a decimal literal; an empty digit run contributes
exponent 0 (the exponent marker is then not part of the parsed prefix). -/
def expDigits (neg : Bool) (r : List Char) : Int :=
  let ds := r.takeWhile Char.isDigit
  if ds.isEmpty then 0
  else if neg then -(natOfDigits ds : Int) else (natOfDigits ds : Int)

/-- Optionally signed exponent digits. -/
def expSigned : List Char → Int
  | '+' :: r => expDigits false r
  | '-' :: r => expDigits true r
  | r => expDigits false r

/-- Value of the optional exponent part of a decimal literal. -/
def expVal : List Char → Int
  | 'e' :: r => expSigned r
  | 'E' :: r => expSigned r
  | _ => 0

/-- Ten to a natural power, as a rational (kernel-evaluable form). -/
def pow10 (n : Nat) : ℚ :=
  ((10 ^ n : ℕ) : ℚ)

/-- Ten to an integer power, as a rational. -/
def zpow10 (z : Int) : ℚ :=
  if 0 ≤ z then pow10 z.toNat else 1 / pow10 (-z).toNat

/-- Fractional digits value: `fracVal ds = natOfDigits ds / 10 ^ ds.length`. -/
def fracVal (ds : List Char) : ℚ :=
  (natOfDigits ds : ℚ) / pow10 ds.length

/-- Longest-prefix unsigned decimal mantissa-with-exponent of `parseFloat`
(after sign handling), per the `StrDecimalLiteral` grammar; `none` when no
prefix is a valid literal. -/
def parseMantissa (cs : List Char) : Option ℚ :=
  let (ip, r1) := cs.span Char.isDigit
  match ip, r1 with
  | [], '.' :: r2 =>
      let (fp, r3) := r2.span Char.isDigit
      if fp.isEmpty then none
      else some (fracVal fp * zpow10 (expVal r3))
  | [], _ => none
  | _, '.' :: r2 =>
      let (fp, r3) := r2.span Char.isDigit
      some (((natOfDigits ip : ℚ) + fracVal fp) * zpow10 (expVal r3))
  | _, _ => some ((natOfDigits ip : ℚ) * zpow10 (expVal r1))

/-- The double-precision round-to-infinity threshold 2^1024 - 2^970 (the
midpoint above the largest finite double), in kernel-evaluable form. -/
def overflowBound : ℚ :=
  ((2 ^ 1024 - 2 ^ 970 : ℕ) : ℚ)

/-- Round an exact decimal value to a JavaScript double, modelling only the
overflow to ±Infinity (in-range values are kept exact). -/
def roundFloat (q : ℚ) : JSNum :=
  if overflowBound ≤ q then .inf
  else if q ≤ -overflowBound then .negInf
  else .finite q

/-- JavaScript `parseFloat`: skip leading whitespace, optional sign, then
either the `Infinity` literal or a decimal literal prefix; NaN when no valid
prefix exists. -/
def jsParseFloat (s : String) : JSNum :=
  let cs := s.data.dropWhile isJSWhitespace
  let signed : Bool × List Char :=
    match cs with
    | '-' :: r => (true, r)
    | '+' :: r => (false, r)
    | _ => (false, cs)
  let neg := signed.1
  let body := signed.2
  if body.take 8 = "Infinity".data then (if neg then .negInf else .inf)
  else
    match parseMantissa body with
    | none => .nan
    | some q => roundFloat (if neg then -q else q)

/-- Embeds `safeParseNumber` (src/unnamed/part_014 lines 14-31): null,
undefined and the empty string give null; numbers pass through unless NaN;
strings are comma-stripped, trimmed, and `parseFloat`-parsed with a NaN guard;
anything else gives null. -/
def safeParseNumber (value : Option JSValue) : Option JSNum :=
  match value with
  | none => none
  | some .jsNull => none
  | some (.num n) => if n = .nan then none else some n
  | some (.str s) =>
      if s = "" then none
      else
        let cleaned := jsTrim ⟨s.data.filter (fun c => c ≠ ',')⟩
        if cleaned = "" ∨ cleaned = "-" then none
        else
          let num := jsParseFloat cleaned
          if num = .nan then none else some num
  | some (.boolV _) => none
  | some .objV => none

/-- Proleptic-Gregorian day count since 1970-01-01 for a valid civil date
(month 1-12); `d` may be any integer day-of-month offset. -/
def daysFromCivil (y : Int) (m : Nat) (d : Int) : Int :=
  let ya : Int := if m ≤ 2 then y - 1 else y
  let era : Int := ya.fdiv 400
  let yoe : Int := ya - era * 400
  let mp : Int := (m : Int) + (if 2 < m then -3 else 9)
  let doy : Int := (153 * mp + 2).fdiv 5 + d - 1
  let doe : Int := yoe * 365 + yoe.fdiv 4 - yoe.fdiv 100 + doy
  era * 146097 + doe - 719468

/-- Day count for possibly out-of-range month/day components, normalizing the
way the `Date(year, monthIndex, day)` constructor does. -/
def daysFromCivilNorm (y m d : Int) : Int :=
  let ms : Int := m - 1
  let ya := y + ms.fdiv 12
  let mn : Nat := (ms.emod 12).toNat + 1
  daysFromCivil ya mn d

/-- Civil date (year, month, day) of a day count since 1970-01-01. -/
def civilFromDays (z0 : Int) : Int × Nat × Nat :=
  let z := z0 + 719468
  let era : Int := z.fdiv 146097
  let doe : Int := z - era * 146097
  let yoe : Int := (doe - doe.fdiv 1460 + doe.fdiv 36524 - doe.fdiv 146096).fdiv 365
  let y : Int := yoe + era * 400
  let doy : Int := doe - (365 * yoe + yoe.fdiv 4 - yoe.fdiv 100)
  let mp : Int := (5 * doy + 2).fdiv 153
  let d : Int := doy - (153 * mp + 2).fdiv 5 + 1
  let m : Int := if mp < 10 then mp + 3 else mp - 9
  (if m ≤ 2 then y + 1 else y, m.toNat, d.toNat)

/-- Gregorian leap-year test. -/
def isLeapYear (y : Int) : Bool :=
  (y.emod 4 == 0 && y.emod 100 != 0) || y.emod 400 == 0

/-- Number of days in a month (month 1-12). -/
def daysInMonth (y : Int) (m : Nat) : Nat :=
  if m = 2 then (if isLeapYear y then 29 else 28)
  else if m = 4 ∨ m = 6 ∨ m = 9 ∨ m = 11 then 30
  else 31

/-- Two-digit zero-padded decimal. -/
def pad2 (n : Nat) : String :=
  if n < 10 then "0" ++ toString n else toString n

/-- Three-digit zero-padded decimal. -/
def pad3 (n : Nat) : String :=
  if n < 10 then "00" ++ toString n
  else if n < 100 then "0" ++ toString n
  else toString n

/-- Four-digit zero-padded decimal. -/
def pad4 (n : Nat) : String :=
  if n < 10 then "000" ++ toString n
  else if n < 100 then "00" ++ toString n
  else if n < 1000 then "0" ++ toString n
  else toString n

/-- Six-digit zero-padded decimal (for expanded ISO years). -/
def pad6 (n : Nat) : String :=
  let s := toString n
  if s.length < 6 then String.mk (List.replicate (6 - s.length) '0') ++ s else s

/-- ISO year field: four digits for 0-9999, expanded signed six digits
otherwise (as `toISOString` emits). -/
def yearStr (y : Int) : String :=
  if 0 ≤ y ∧ y ≤ 9999 then pad4 y.toNat
  else if y < 0 then "-" ++ pad6 (-y).toNat
  else "+" ++ pad6 y.toNat

/-- JavaScript `Date.prototype.toISOString` on an epoch-millisecond instant
(UTC-equivalent timezone model). -/
def toISOString (t : Int) : String :=
  let days := t.fdiv 86400000
  let rem := (t.emod 86400000).toNat
  let ymd := civilFromDays days
  yearStr ymd.1 ++ "-" ++ pad2 ymd.2.1 ++ "-" ++ pad2 ymd.2.2 ++ "T" ++
    pad2 (rem / 3600000) ++ ":" ++ pad2 (rem / 60000 % 60) ++ ":" ++
    pad2 (rem / 1000 % 60) ++ "." ++ pad3 (rem % 1000) ++ "Z"

/-- Read exactly `n` ASCII digits. -/
def digitsN (n : Nat) (cs : List Char) : Option (Nat × List Char) :=
  let ds := cs.take n
  if ds.length = n ∧ ds.all Char.isDigit then some (natOfDigits ds, cs.drop n)
  else none

/-- Expect one specific character. -/
def expectChar (c : Char) : List Char → Option (List Char)
  | x :: r => if x = c then some r else none
  | [] => none

/-- Optional `.sss` millisecond part of an ISO time. -/
def parseMsPart : List Char → Option (Nat × List Char)
  | '.' :: r =>
      (match digitsN 3 r with
       | some (ms, r2) => some (ms, r2)
       | none => none)
  | r => some (0, r)

/-- Optional `:ss(.sss)` part of an ISO time. -/
def parseSecPart : List Char → Option (Nat × Nat × List Char)
  | ':' :: r => do
      let (ss, r2) ← digitsN 2 r
      let (ms, r3) ← parseMsPart r2
      some (ss, ms, r3)
  | r => some (0, 0, r)

/-- Optional trailing `Z` designator. -/
def parseZulu : List Char → List Char
  | 'Z' :: r => r
  | r => r

/-- Strict ISO-8601 Date Time String Format parser (`YYYY-MM-DD` optionally
followed by `THH:mm`, `:ss`, `.sss`, `Z`), the portion of `new Date(string)`
the language specification mandates.  Explicit UTC offsets and
implementation-defined lenient formats are modelled as unparseable.  Date-only
and date-time forms coincide in the fixed UTC-equivalent timezone model. -/
def parseISOChars (cs : List Char) : Option Int := do
  let (y, r1) ← digitsN 4 cs
  let r2 ← expectChar '-' r1
  let (mo, r3) ← digitsN 2 r2
  let r4 ← expectChar '-' r3
  let (d, r5) ← digitsN 2 r4
  if 1 ≤ mo ∧ mo ≤ 12 ∧ 1 ≤ d ∧ d ≤ daysInMonth (y : Int) mo then
    match r5 with
    | [] => some (daysFromCivil (y : Int) mo (d : Int) * 86400000)
    | 'T' :: r6 => do
        let (hh, r7) ← digitsN 2 r6
        let r8 ← expectChar ':' r7
        let (mi, r9) ← digitsN 2 r8
        let (ss, ms, r10) ← parseSecPart r9
        if parseZulu r10 = [] ∧ hh ≤ 23 ∧ mi ≤ 59 ∧ ss ≤ 59 then
          some (daysFromCivil (y : Int) mo (d : Int) * 86400000 +
            (hh : Int) * 3600000 + (mi : Int) * 60000 + (ss : Int) * 1000 + (ms : Int))
        else none
    | _ => none
  else none

/-- The `Date(year, monthIndex, day)` constructor: component normalization,
1900-offset for two-digit years applied by the caller, invalid (NaN) only
outside the ±8.64e15 ms range. -/
def newDateEpoch (y mIdx d : Int) : Option Int :=
  let t := daysFromCivilNorm y (mIdx + 1) d * 86400000
  if t.natAbs ≤ 8640000000000000 then some t else none

/-- Match of the anchored `(\d{1,2})/(\d{1,2})/(\d{4})` pattern, returning
(day, month, year) digit values. -/
def matchDDMMYYYY (cs : List Char) : Option (Nat × Nat × Nat) :=
  let (ds, r1) := cs.span Char.isDigit
  if 1 ≤ ds.length ∧ ds.length ≤ 2 then
    match r1 with
    | '/' :: r2 =>
        let (ms, r3) := r2.span Char.isDigit
        if 1 ≤ ms.length ∧ ms.length ≤ 2 then
          match r3 with
          | '/' :: r4 =>
              let (ys, r5) := r4.span Char.isDigit
              if ys.length = 4 ∧ r5 = [] then
                some (natOfDigits ds, natOfDigits ms, natOfDigits ys)
              else none
          | _ => none
        else none
    | _ => none
  else none

/-- Match of the anchored
`(\d{4})-(\d{2})-(\d{2})\s+(\d{2}):(\d{2}):(\d{2})` pattern. -/
def matchIsoLike (cs : List Char) : Bool :=
  (Option.isSome <| do
    let (_, r1) ← digitsN 4 cs
    let r2 ← expectChar '-' r1
    let (_, r3) ← digitsN 2 r2
    let r4 ← expectChar '-' r3
    let (_, r5) ← digitsN 2 r4
    let sp := r5.takeWhile isJSWhitespace
    let r6 := r5.dropWhile isJSWhitespace
    let (_, r7) ← digitsN 2 r6
    let r8 ← expectChar ':' r7
    let (_, r9) ← digitsN 2 r8
    let r10 ← expectChar ':' r9
    let (_, r11) ← digitsN 2 r10
    if 1 ≤ sp.length ∧ r11 = [] then some 0 else none)

/-- Replace the first space character by `T` (JavaScript
`str.replace(" ", "T")` with a plain-string pattern). -/
def replaceFirstSpace : List Char → List Char
  | [] => []
  | ' ' :: r => 'T' :: r
  | c :: r => c :: replaceFirstSpace r

/-- Drop trailing zero digits from a fraction digit list. -/
def stripTrailingZeros (s : List Char) : List Char :=
  (s.reverse.dropWhile (fun c => c = '0')).reverse

/-- Smallest exponent `k` with `d` dividing `10 ^ k`, searched over a range
covering every denominator a parsed double can have. -/
def pow10DenExp (d : Nat) : Option Nat :=
  (List.range 1100).find? (fun k => 10 ^ k % d = 0)

/-- Left-pad a decimal with zeros to width `w`. -/
def padLeftZeros (w : Nat) (n : Nat) : String :=
  let s := toString n
  if s.length < w then String.mk (List.replicate (w - s.length) '0') ++ s else s

/-- Decimal display of a rational whose denominator divides a power of ten
(every value produced by the modelled `parseFloat` has this form).  JavaScript
shortest-round-trip printing and exponential notation are not modelled; no
verified claim inspects these strings. -/
def ratToString (q : ℚ) : String :=
  match pow10DenExp q.den with
  | some 0 => toString q.num
  | some (k + 1) =>
      let scale := 10 ^ (k + 1) / q.den
      let n := q.num.natAbs * scale
      let ip := n / 10 ^ (k + 1)
      let fp := n % 10 ^ (k + 1)
      let fpStr := stripTrailingZeros (padLeftZeros (k + 1) fp).data
      (if q.num < 0 then "-" else "") ++ toString ip ++
        (if fpStr.isEmpty then "" else "." ++ String.mk fpStr)
  | none => toString q.num ++ "/" ++ toString q.den

/-- JavaScript number-to-string. -/
def jsNumToString : JSNum → String
  | .nan => "NaN"
  | .inf => "Infinity"
  | .negInf => "-Infinity"
  | .finite q => ratToString q

/-- JavaScript `String(value)` on a defined value. -/
def jsToString : JSValue → String
  | .str s => s
  | .num n => jsNumToString n
  | .jsNull => "null"
  | .boolV b => if b then "true" else "false"
  | .objV => "[object Object]"

/-- Body of `safeParseDateToISO` after the untyped value has been stringified:
try the `DD/MM/YYYY` pattern (through the normalizing `Date(y, m-1, d)`
constructor, with the 1900 offset for two-digit years), then the
`YYYY-MM-DD HH:mm:ss` pattern (first space replaced by `T`, then ISO-parsed),
then native parsing, and finally return the trimmed original string
unchanged. -/
def safeParseDateToISOStr (s : String) : String :=
  let str := jsTrim s
  if str = "" then ""
  else
    let viaDdmm : Option String :=
      match matchDDMMYYYY str.data with
      | some (d, m, y) =>
          (newDateEpoch (if (y : Int) ≤ 99 then (y : Int) + 1900 else (y : Int))
            ((m : Int) - 1) (d : Int)).map toISOString
      | none => none
    match viaDdmm with
    | some out => out
    | none =>
        let viaIsoLike : Option String :=
          if matchIsoLike str.data then
            (parseISOChars (replaceFirstSpace str.data)).map toISOString
          else none
        match viaIsoLike with
        | some out => out
        | none =>
            match parseISOChars str.data with
            | some t => toISOString t
            | none => str

/-- Embeds `safeParseDateToISO` (src/unnamed/part_014 lines 37-70). -/
def safeParseDateToISO (v : Option JSValue) : String :=
  match v with
  | none => ""
  | some .jsNull => ""
  | some (.str s) => if s = "" then "" else safeParseDateToISOStr s
  | some (.num n) => safeParseDateToISOStr (jsNumToString n)
  | some (.boolV b) => safeParseDateToISOStr (jsToString (.boolV b))
  | some .objV => safeParseDateToISOStr (jsToString .objV)

/-- The three zod field transformer kinds used by `RawRowSchema`. -/
inductive FieldKind where
  | strF : FieldKind
  | numF : FieldKind
  | dateF : FieldKind
deriving DecidableEq, Repr

/-- A raw spreadsheet row object: column name to value; an absent key is
`undefined`. -/
def lookupKey (raw : List (String × JSValue)) (k : String) : Option JSValue :=
  (raw.find? (fun p => p.1 = k)).map Prod.snd

/-- The `stringField` transformer: `z.union([string, number, null, undefined])`
then null/undefined to `""`, otherwise `String(val).trim()`; `none` when the
union rejects the value.  A raw NaN number is rejected: zod classifies NaN as
its own parsed type, not `number`, so no member of the union accepts it. -/
def coerceStringField (v : Option JSValue) : Option String :=
  match v with
  | none => some ""
  | some .jsNull => some ""
  | some (.str s) => some (jsTrim s)
  | some (.num n) => if n = .nan then none else some (jsTrim (jsNumToString n))
  | some (.boolV _) => none
  | some .objV => none

/-- The `numericField` transformer: `z.union([string, number, null,
undefined])` then `safeParseNumber`; `none` when the union rejects the
value.  A raw NaN number is rejected by the union itself (zod parses NaN as
its own type, not `number`), so `safeParseNumber`'s NaN guard is only ever
reached by non-NaN numbers here. -/
def coerceNumericField (v : Option JSValue) : Option (Option JSNum) :=
  match v with
  | some (.num n) => if n = .nan then none else some (safeParseNumber (some (.num n)))
  | some (.boolV _) => none
  | some .objV => none
  | w => some (safeParseNumber w)

/-- The `dateField` transformer: `z.union([string, null, undefined])` then
`safeParseDateToISO`; `none` when the union rejects the value (in particular
any number). -/
def coerceDateField (v : Option JSValue) : Option String :=
  match v with
  | none => some (safeParseDateToISO none)
  | some .jsNull => some (safeParseDateToISO (some .jsNull))
  | some (.str s) => some (safeParseDateToISO (some (.str s)))
  | some (.num _) => none
  | some (.boolV _) => none
  | some .objV => none

/-- Whether a raw value is accepted by a field kind's union type. -/
def fieldOk (kind : FieldKind) (v : Option JSValue) : Bool :=
  match kind with
  | .strF => (coerceStringField v).isSome
  | .numF => (coerceNumericField v).isSome
  | .dateF => (coerceDateField v).isSome

/-- The columns of `RawRowSchema` with their transformer kinds (the
`.passthrough()` schema ignores unknown keys). -/
def schemaFields : List (String × FieldKind) :=
  [("journey_id", .strF), ("customer_load_id", .strF), ("load_id", .strF),
   ("branch_id", .strF), ("branch_name", .strF), ("Date", .strF),
   ("created_at", .dateF), ("closed_at", .dateF), ("load_status", .strF),
   ("origin_location", .strF), ("stop_location", .strF),
   ("drop_closest_ping_address", .strF),
   ("Nearest Consignee", .strF), ("Nearest Consignee Code", .strF),
   ("erp_transit_distance_km", .numF), ("A to C Distance(vehicle travel)", .numF),
   ("Diff in lead", .numF), ("total_distance_travelled_km", .numF),
   ("Total Freight", .numF), ("Nearest Consignee Total Freight", .numF),
   ("Freight impact as per PTPK/Nearest consignee", .numF), ("Freight", .numF),
   ("company_id", .strF), ("invoice_numbers", .strF), ("branch_short_code", .strF),
   ("drop_haversine_distance", .numF), ("total_invoiced_qty", .numF),
   ("vehicle_number", .strF), ("vehicle_type", .strF), ("driver_number", .strF),
   ("network_operator", .strF), ("track_mode", .strF),
   ("status_of_tracked_mode", .strF),
   ("origin_entry_time_geofence", .dateF), ("origin_exit_time_geofence", .dateF),
   ("mode_of_closure", .strF), ("loading_TAT_in_hrs", .numF),
   ("actual_transit_time_in_days", .numF), ("pickup_lat", .numF),
   ("pickup_lng", .numF), ("drop_lat", .numF), ("drop_lng", .numF),
   ("ft_consent_status", .strF), ("drop_closest_ping_lat", .numF),
   ("drop_closest_ping_lng", .numF), ("drop_google_distance_meters", .numF),
   ("drop_stop_code", .strF), ("Nearest Consignee distance", .numF),
   ("Nearest Consignee Freight", .numF), ("2nd Nearest Consignee", .strF),
   ("2nd Nearest Consignee Code", .strF), ("2nd Nearest Consignee distance", .numF),
   ("2nd Nearest Consignee Freight", .numF),
   ("2nd Nearest Consignee Total Freight", .numF),
   ("Freight calculation Remarks", .strF)]

/-- Parsed string field of a (schema-accepted) raw row. -/
def strVal (raw : List (String × JSValue)) (k : String) : String :=
  (coerceStringField (lookupKey raw k)).getD ""

/-- Parsed numeric field of a (schema-accepted) raw row. -/
def numVal (raw : List (String × JSValue)) (k : String) : Option JSNum :=
  (coerceNumericField (lookupKey raw k)).getD none

/-- Parsed date field of a (schema-accepted) raw row. -/
def dateVal (raw : List (String × JSValue)) (k : String) : String :=
  (coerceDateField (lookupKey raw k)).getD ""

/-- JavaScript `a || b` on strings (the empty string is the only falsy
string). -/
def jsOrElse (a b : String) : String :=
  if a = "" then b else a

/-- The canonical record (`DiversionRow` interface,
src/unnamed/part_014 lines 172-215). -/
structure DiversionRow where
  id : String
  journeyId : String
  customerLoadId : String
  loadId : String
  branchId : String
  branchName : String
  date : String
  dateISO : String
  createdAt : String
  closedAt : String
  loadStatus : String
  originLocation : String
  stopLocation : String
  dropClosestPingAddress : String
  nearestConsignee : String
  nearestConsigneeCode : String
  erpTransitDistanceKm : Option JSNum
  aToCDistanceKm : Option JSNum
  diffInLead : Option JSNum
  totalDistanceTravelledKm : Option JSNum
  totalFreight : Option JSNum
  nearestConsigneeTotalFreight : Option JSNum
  freightImpact : Option JSNum
  isPotentialDiversion : Bool
  shortLeadDistanceKm : Option JSNum
  vehicleNumber : String
  vehicleType : String
  freightCalculationRemarks : String
  statusOfTrackedMode : String
  loadingTatHrs : Option JSNum
  actualTransitTimeDays : Option JSNum
deriving DecidableEq, Repr

/-- Embeds `normalizeRow` (src/unnamed/part_014 lines 225-279): `none` models
the `ZodError` thrown when some schema field's union type rejects the raw
value; otherwise the canonical record is built from the parsed fields. -/
def normalizeRow (raw : List (String × JSValue)) (index : Nat) : Option DiversionRow :=
  if schemaFields.all (fun p => fieldOk p.2 (lookupKey raw p.1)) then
    let diffInLead := numVal raw "Diff in lead"
    some
      { id := jsOrElse (strVal raw "customer_load_id") ("row-" ++ toString index)
        journeyId := jsOrElse (strVal raw "journey_id") ""
        customerLoadId := jsOrElse (strVal raw "customer_load_id") ""
        loadId := jsOrElse (strVal raw "load_id") ""
        branchId := jsOrElse (strVal raw "branch_id") ""
        branchName := jsOrElse (strVal raw "branch_name") ""
        date := jsOrElse (strVal raw "Date") ""
        dateISO := safeParseDateToISOStr (strVal raw "Date")
        createdAt := jsOrElse (dateVal raw "created_at") ""
        closedAt := jsOrElse (dateVal raw "closed_at") ""
        loadStatus := jsOrElse (strVal raw "load_status") ""
        originLocation := jsOrElse (strVal raw "origin_location") ""
        stopLocation := jsOrElse (strVal raw "stop_location") ""
        dropClosestPingAddress := jsOrElse (strVal raw "drop_closest_ping_address") ""
        nearestConsignee := jsOrElse (strVal raw "Nearest Consignee") ""
        nearestConsigneeCode := jsOrElse (strVal raw "Nearest Consignee Code") ""
        erpTransitDistanceKm := numVal raw "erp_transit_distance_km"
        aToCDistanceKm := numVal raw "A to C Distance(vehicle travel)"
        diffInLead := diffInLead
        totalDistanceTravelledKm := numVal raw "total_distance_travelled_km"
        totalFreight := numVal raw "Total Freight"
        nearestConsigneeTotalFreight := numVal raw "Nearest Consignee Total Freight"
        freightImpact := numVal raw "Freight impact as per PTPK/Nearest consignee"
        isPotentialDiversion :=
          match diffInLead with
          | some v => JSNum.lt v (.finite 0)
          | none => false
        shortLeadDistanceKm := diffInLead.map JSNum.abs
        vehicleNumber := jsOrElse (strVal raw "vehicle_number") ""
        vehicleType := jsOrElse (strVal raw "vehicle_type") ""
        freightCalculationRemarks := jsOrElse (strVal raw "Freight calculation Remarks") ""
        statusOfTrackedMode := jsOrElse (strVal raw "status_of_tracked_mode") ""
        loadingTatHrs := numVal raw "loading_TAT_in_hrs"
        actualTransitTimeDays := numVal raw "actual_transit_time_in_days" }
  else none

/-- The indexed loop body of `normalizeRows`: apply `normalizeRow` to each row
with its positional index, keeping successes and skipping failures. -/
def normalizeRowsFrom (i : Nat) : List (List (String × JSValue)) → List DiversionRow
  | [] => []
  | r :: rest =>
      match normalizeRow r i with
      | some v => v :: normalizeRowsFrom (i + 1) rest
      | none => normalizeRowsFrom (i + 1) rest

/-- Embeds `normalizeRows` (src/unnamed/part_014 lines 285-298). -/
def normalizeRows (rawRows : List (List (String × JSValue))) : List DiversionRow :=
  normalizeRowsFrom 0 rawRows

/-- Stable insertion into a sorted-so-far list: the new element goes after
every element the comparator places at-or-before it, matching the stable
`Array.prototype.sort`. -/
def insertR {α : Type} (le : α → α → Bool) (a : α) : List α → List α
  | [] => [a]
  | b :: l => if le b a then b :: insertR le a l else a :: b :: l

/-- Stable sort by a boolean comparator (model of `Array.prototype.sort`,
which is required to be stable; on total preorders every stable sort computes
the same list). -/
def stableSort {α : Type} (le : α → α → Bool) (l : List α) : List α :=
  l.foldl (fun acc a => insertR le a acc) []

/-- JavaScript `Map.set`-style update of an association list: rewrite the
value at the first occurrence of the key, or append a new entry (`Map`
iteration is in first-insertion order). -/
def updateAssoc {β : Type} (m : List (String × β)) (k : String) (f : Option β → β) :
    List (String × β) :=
  match m with
  | [] => [(k, f none)]
  | (k0, v) :: rest =>
      if k0 = k then (k0, f (some v)) :: rest else (k0, v) :: updateAssoc rest k f

/-- First-occurrence lookup in an association list (`Map.get`). -/
def lookupA {β : Type} : List (String × β) → String → Option β
  | [], _ => none
  | (k0, v) :: rest, k => if k0 = k then some v else lookupA rest k

/-- JavaScript `Set.add`-style insert keeping first-insertion order. -/
def insertIfAbsent (l : List String) (s : String) : List String :=
  if s ∈ l then l else l ++ [s]

/-- The dashboard filter state (src/unnamed/part_015 lines 304-311).  Empty
strings are the unset (falsy) values for the text filters. -/
structure FilterState where
  dateFrom : String
  dateTo : String
  branch : String
  consignee : String
  minFreightImpact : Option JSNum
  onlyDiversions : Bool
deriving DecidableEq, Repr

/-- The default filter state (`DEFAULT_FILTERS`). -/
def DEFAULT_FILTERS : FilterState :=
  ⟨"", "", "", "", none, true⟩

/-- The `date-fns` two-digit-day / two-digit-month / four-digit-year parse
against a complete `dd/MM/yyyy` format: every date unit is taken from the
string and all lower-order units are reset to zero, so the wall-clock
reference date `_now` supplies nothing. -/
def datefnsParseDMY (_now : Int) (cs : List Char) : Option Int := do
  let (d, r1) ← digitsN 2 cs
  let r2 ← expectChar '/' r1
  let (m, r3) ← digitsN 2 r2
  let r4 ← expectChar '/' r3
  let (y, r5) ← digitsN 4 r4
  if r5 = [] ∧ 1 ≤ m ∧ m ≤ 12 ∧ 1 ≤ d ∧ d ≤ daysInMonth (y : Int) m then
    some (daysFromCivil (y : Int) m (d : Int) * 86400000)
  else none

/-- The `date-fns` parse against the complete `yyyy-MM-dd HH:mm:ss` format
(reference date again unused). -/
def datefnsParseYMDHMS (_now : Int) (cs : List Char) : Option Int := do
  let (y, r1) ← digitsN 4 cs
  let r2 ← expectChar '-' r1
  let (mo, r3) ← digitsN 2 r2
  let r4 ← expectChar '-' r3
  let (d, r5) ← digitsN 2 r4
  let r6 ← expectChar ' ' r5
  let (hh, r7) ← digitsN 2 r6
  let r8 ← expectChar ':' r7
  let (mi, r9) ← digitsN 2 r8
  let r10 ← expectChar ':' r9
  let (ss, r11) ← digitsN 2 r10
  if r11 = [] ∧ 1 ≤ mo ∧ mo ≤ 12 ∧ 1 ≤ d ∧ d ≤ daysInMonth (y : Int) mo ∧
      hh ≤ 23 ∧ mi ≤ 59 ∧ ss ≤ 59 then
    some (daysFromCivil (y : Int) mo (d : Int) * 86400000 +
      (hh : Int) * 3600000 + (mi : Int) * 60000 + (ss : Int) * 1000)
  else none

/-- The `date-fns` parse against the complete `yyyy-MM-dd` format (reference
date again unused). -/
def datefnsParseYMD (_now : Int) (cs : List Char) : Option Int := do
  let (y, r1) ← digitsN 4 cs
  let r2 ← expectChar '-' r1
  let (mo, r3) ← digitsN 2 r2
  let r4 ← expectChar '-' r3
  let (d, r5) ← digitsN 2 r4
  if r5 = [] ∧ 1 ≤ mo ∧ mo ≤ 12 ∧ 1 ≤ d ∧ d ≤ daysInMonth (y : Int) mo then
    some (daysFromCivil (y : Int) mo (d : Int) * 86400000)
  else none

/-- Embeds `parseDate` (src/unnamed/part_015 lines 428-454).  `now` is the
wall-clock instant passed by the source as the `date-fns` reference date; the
complete formats used make the result clock-independent. -/
def parseDate (now : Int) (s : String) : Option Int :=
  if s = "" then none
  else
    match (if s.data.contains 'T' then parseISOChars s.data else none) with
    | some t => some t
    | none =>
        match datefnsParseDMY now s.data with
        | some t => some t
        | none =>
            match datefnsParseYMDHMS now s.data with
            | some t => some t
            | none =>
                match datefnsParseYMD now s.data with
                | some t => some t
                | none => parseISOChars s.data

/-- `toDate.setHours(23, 59, 59, 999)`: the last millisecond of the civil day
containing the instant. -/
def endOfDay (t : Int) : Int :=
  t - t.emod 86400000 + 86399999

/-- JavaScript `x || 0` on a nullable number (null, undefined, NaN and ±0 are
falsy). -/
def jsNumOrZero (x : Option JSNum) : JSNum :=
  match x with
  | none => .finite 0
  | some .nan => .finite 0
  | some v => v

/-- The minimum-freight-impact rejection test of `applyFilters`: active when
the threshold is set and non-zero; rejects null impacts and impacts of
absolute value below the absolute threshold. -/
def minImpactReject (minF : Option JSNum) (impact : Option JSNum) : Bool :=
  match minF with
  | none => false
  | some m =>
      if m = .finite 0 then false
      else
        match impact with
        | none => true
        | some i => JSNum.lt (JSNum.abs i) (JSNum.abs m)

/-- The per-record predicate of `applyFilters`
(src/unnamed/part_015 lines 504-549). -/
def rowMatches (now : Int) (f : FilterState) (r : DiversionRow) : Bool :=
  if f.onlyDiversions && !r.isPotentialDiversion then false
  else if f.branch != "" && r.branchName != f.branch then false
  else if f.consignee != "" && r.nearestConsignee != f.consignee then false
  else if minImpactReject f.minFreightImpact r.freightImpact then false
  else if f.dateFrom != "" || f.dateTo != "" then
    match parseDate now (jsOrElse r.dateISO r.date) with
    | none => false
    | some t =>
        let fromRej := f.dateFrom != "" &&
          (match parseDate now f.dateFrom with
           | some fd => decide (t < fd)
           | none => false)
        let toRej := f.dateTo != "" &&
          (match parseDate now f.dateTo with
           | some td => decide (endOfDay td < t)
           | none => false)
        !(fromRej || toRej)
  else true

/-- Embeds `applyFilters` (src/unnamed/part_015 lines 503-550). -/
def applyFilters (now : Int) (rows : List DiversionRow) (f : FilterState) :
    List DiversionRow :=
  rows.filter (rowMatches now f)

/-- The scorecards record (src/unnamed/part_015 lines 322-329). -/
structure Scorecards where
  totalPotentialRecovery : JSNum
  avgShortLeadDistance : JSNum
  maxDivertedDistance : JSNum
  totalDivertedJourneys : Nat
  totalConsigneesInvolved : Nat
  totalBranchesWithDiversions : Nat
deriving DecidableEq, Repr

/-- Embeds `calculateScorecards` (src/unnamed/part_015 lines 556-600). -/
def calculateScorecards (rows : List DiversionRow) : Scorecards :=
  let divertedRows := rows.filter (fun r => r.isPotentialDiversion)
  let totalPotentialRecovery :=
    divertedRows.foldl (fun s r => JSNum.add s (JSNum.abs (jsNumOrZero r.freightImpact)))
      (.finite 0)
  let shortLeadDistances := divertedRows.filterMap (fun r => r.shortLeadDistanceKm)
  { totalPotentialRecovery := totalPotentialRecovery
    avgShortLeadDistance :=
      if 0 < shortLeadDistances.length then
        JSNum.divNat (shortLeadDistances.foldl JSNum.add (.finite 0))
          shortLeadDistances.length
      else .finite 0
    maxDivertedDistance :=
      if 0 < shortLeadDistances.length then
        shortLeadDistances.foldl JSNum.max2 .negInf
      else .finite 0
    totalDivertedJourneys :=
      (((divertedRows.map (fun r => r.journeyId)).filter (fun s => s ≠ "")).dedup).length
    totalConsigneesInvolved :=
      (((divertedRows.map (fun r => r.nearestConsignee)).filter (fun s => s ≠ "")).dedup).length
    totalBranchesWithDiversions :=
      (((divertedRows.map (fun r => r.branchName)).filter (fun s => s ≠ "")).dedup).length }

/-- A ranked chart entry (src/unnamed/part_015 lines 331-335). -/
structure ChartDataPoint where
  name : String
  recovery : JSNum
  count : Nat
deriving DecidableEq, Repr

/-- Comparator model of `(a, b) => b.recovery - a.recovery`. -/
def chartLe (a b : ChartDataPoint) : Bool :=
  JSNum.le b.recovery a.recovery

/-- Embeds `calculateBranchChart` (src/unnamed/part_015 lines 606-622); the
source's default limit is 10, passed explicitly by the model builder. -/
def calculateBranchChart (rows : List DiversionRow) (limit : Nat) : List ChartDataPoint :=
  let divertedRows := rows.filter (fun r => r.isPotentialDiversion)
  let branchMap := divertedRows.foldl
    (fun m r =>
      if r.branchName = "" then m
      else updateAssoc m r.branchName (fun old =>
        let e := old.getD (JSNum.finite 0, 0)
        (JSNum.add e.1 (JSNum.abs (jsNumOrZero r.freightImpact)), e.2 + 1)))
    []
  ((stableSort chartLe (branchMap.map (fun p => ChartDataPoint.mk p.1 p.2.1 p.2.2)))).take limit

/-- Embeds `calculateConsigneeChart` (src/unnamed/part_015 lines 624-640). -/
def calculateConsigneeChart (rows : List DiversionRow) (limit : Nat) : List ChartDataPoint :=
  let divertedRows := rows.filter (fun r => r.isPotentialDiversion)
  let consigneeMap := divertedRows.foldl
    (fun m r =>
      if r.nearestConsignee = "" then m
      else updateAssoc m r.nearestConsignee (fun old =>
        let e := old.getD (JSNum.finite 0, 0)
        (JSNum.add e.1 (JSNum.abs (jsNumOrZero r.freightImpact)), e.2 + 1)))
    []
  ((stableSort chartLe (consigneeMap.map (fun p => ChartDataPoint.mk p.1 p.2.1 p.2.2)))).take limit

/-- A branch table row (src/unnamed/part_015 lines 337-343). -/
structure BranchTableRow where
  branchName : String
  divertedJourneys : Nat
  totalRecovery : JSNum
  avgShortLead : JSNum
  maxShortLead : JSNum
deriving DecidableEq, Repr

/-- Per-branch accumulator of `calculateBranchTable`. -/
structure GroupAcc where
  journeys : List String
  recovery : JSNum
  shortLeads : List JSNum
deriving DecidableEq, Repr

/-- Comparator model of `(a, b) => b.totalRecovery - a.totalRecovery`. -/
def branchTableLe (a b : BranchTableRow) : Bool :=
  JSNum.le b.totalRecovery a.totalRecovery

/-- Mean of an accumulated short-lead list (0 when empty). -/
def shortLeadAvg (l : List JSNum) : JSNum :=
  if 0 < l.length then JSNum.divNat (l.foldl JSNum.add (.finite 0)) l.length
  else .finite 0

/-- `Math.max(...)` over an accumulated short-lead list (0 when empty). -/
def shortLeadMax (l : List JSNum) : JSNum :=
  if 0 < l.length then l.foldl JSNum.max2 .negInf else .finite 0

/-- Embeds `calculateBranchTable` (src/unnamed/part_015 lines 649-683). -/
def calculateBranchTable (rows : List DiversionRow) : List BranchTableRow :=
  let divertedRows := rows.filter (fun r => r.isPotentialDiversion)
  let branchMap := divertedRows.foldl
    (fun (m : List (String × GroupAcc)) r =>
      if r.branchName = "" then m
      else updateAssoc m r.branchName (fun old =>
        let e := old.getD ⟨[], .finite 0, []⟩
        { journeys :=
            if r.journeyId ≠ "" then insertIfAbsent e.journeys r.journeyId
            else e.journeys
          recovery := JSNum.add e.recovery (JSNum.abs (jsNumOrZero r.freightImpact))
          shortLeads :=
            match r.shortLeadDistanceKm with
            | some v => e.shortLeads ++ [v]
            | none => e.shortLeads }))
    []
  stableSort branchTableLe (branchMap.map (fun p =>
    { branchName := p.1
      divertedJourneys := p.2.journeys.length
      totalRecovery := p.2.recovery
      avgShortLead := shortLeadAvg p.2.shortLeads
      maxShortLead := shortLeadMax p.2.shortLeads }))

/-- A consignee table row (src/unnamed/part_015 lines 345-350). -/
structure ConsigneeTableRow where
  consignee : String
  divertedJourneys : Nat
  totalRecovery : JSNum
  repeatRate : JSNum
deriving DecidableEq, Repr

/-- Per-consignee accumulator of `calculateConsigneeTable`. -/
structure ConsAcc where
  journeys : List String
  recovery : JSNum
deriving DecidableEq, Repr

/-- Comparator model of `(a, b) => b.totalRecovery - a.totalRecovery`. -/
def consTableLe (a b : ConsigneeTableRow) : Bool :=
  JSNum.le b.totalRecovery a.totalRecovery

/-- Distinct non-empty journey ids among the anomaly rows of the input: the
`totalJourneys` repeat-rate denominator of `calculateConsigneeTable`. -/
def totalAnomalyJourneys (rows : List DiversionRow) : Nat :=
  ((((rows.filter (fun r => r.isPotentialDiversion)).map (fun r => r.journeyId)).filter
    (fun s => s ≠ "")).dedup).length

/-- The per-row consignee accumulator update of `calculateConsigneeTable`. -/
def consUpd (r : DiversionRow) (old : Option ConsAcc) : ConsAcc :=
  let e := old.getD ⟨[], .finite 0⟩
  { journeys :=
      if r.journeyId ≠ "" then insertIfAbsent e.journeys r.journeyId
      else e.journeys
    recovery := JSNum.add e.recovery (JSNum.abs (jsNumOrZero r.freightImpact)) }

/-- The fold step of `calculateConsigneeTable`'s grouping. -/
def consStep (m : List (String × ConsAcc)) (r : DiversionRow) : List (String × ConsAcc) :=
  if r.nearestConsignee = "" then m
  else updateAssoc m r.nearestConsignee (consUpd r)

/-- The displayed consignee row of one accumulated group, given the
distinct-journey denominator. -/
def consRowOf (totalJourneys : Nat) (p : String × ConsAcc) : ConsigneeTableRow :=
  { consignee := p.1
    divertedJourneys := p.2.journeys.length
    totalRecovery := p.2.recovery
    repeatRate :=
      if 0 < totalJourneys then
        .finite ((p.2.journeys.length : ℚ) / (totalJourneys : ℚ) * 100)
      else .finite 0 }

/-- Embeds `calculateConsigneeTable` (src/unnamed/part_015 lines 688-713). -/
def calculateConsigneeTable (rows : List DiversionRow) : List ConsigneeTableRow :=
  let divertedRows := rows.filter (fun r => r.isPotentialDiversion)
  let totalJourneys := totalAnomalyJourneys rows
  let consigneeMap := divertedRows.foldl consStep []
  stableSort consTableLe (consigneeMap.map (consRowOf totalJourneys))

/-- A corridor table row (src/unnamed/part_015 lines 352-359). -/
structure CorridorTableRow where
  origin : String
  destination : String
  corridor : String
  count : Nat
  totalRecovery : JSNum
  avgShortLead : JSNum
deriving DecidableEq, Repr

/-- Per-corridor accumulator of `calculateCorridorTable`. -/
structure CorrAcc where
  origin : String
  destination : String
  count : Nat
  recovery : JSNum
  shortLeads : List JSNum
deriving DecidableEq, Repr

/-- Comparator model of `(a, b) => b.count - a.count`. -/
def corrTableLe (a b : CorridorTableRow) : Bool :=
  decide (b.count ≤ a.count)

/-- Substituted origin of a row for corridor grouping (`r.originLocation ||
"Unknown"`). -/
def corrOrigin (r : DiversionRow) : String :=
  jsOrElse r.originLocation "Unknown"

/-- Substituted destination of a row for corridor grouping (`r.stopLocation ||
"Unknown"`). -/
def corrDest (r : DiversionRow) : String :=
  jsOrElse r.stopLocation "Unknown"

/-- The joined `Map` key of `calculateCorridorTable`:
origin + `"|||"` + destination. -/
def corrKey (r : DiversionRow) : String :=
  corrOrigin r ++ "|||" ++ corrDest r

/-- The per-row corridor accumulator update of `calculateCorridorTable`. -/
def corrUpd (r : DiversionRow) (old : Option CorrAcc) : CorrAcc :=
  let e := old.getD ⟨corrOrigin r, corrDest r, 0, .finite 0, []⟩
  { origin := e.origin
    destination := e.destination
    count := e.count + 1
    recovery := JSNum.add e.recovery (JSNum.abs (jsNumOrZero r.freightImpact))
    shortLeads :=
      match r.shortLeadDistanceKm with
      | some v => e.shortLeads ++ [v]
      | none => e.shortLeads }

/-- The fold step of `calculateCorridorTable`'s grouping. -/
def corrStep (m : List (String × CorrAcc)) (r : DiversionRow) : List (String × CorrAcc) :=
  updateAssoc m (corrKey r) (corrUpd r)

/-- The displayed corridor row of one accumulated group. -/
def corrRowOf (p : String × CorrAcc) : CorridorTableRow :=
  { origin := p.2.origin
    destination := p.2.destination
    corridor := p.2.origin ++ " → " ++ p.2.destination
    count := p.2.count
    totalRecovery := p.2.recovery
    avgShortLead := shortLeadAvg p.2.shortLeads }

/-- Embeds `calculateCorridorTable` (src/unnamed/part_015 lines 718-758). -/
def calculateCorridorTable (rows : List DiversionRow) : List CorridorTableRow :=
  let divertedRows := rows.filter (fun r => r.isPotentialDiversion)
  let corridorMap := divertedRows.foldl corrStep []
  stableSort corrTableLe (corridorMap.map corrRowOf)

/-- A penalty-candidate row (src/unnamed/part_015 lines 361-371). -/
structure PenaltyCandidateRow where
  journeyId : String
  branchName : String
  consignee : String
  diffInLead : Option JSNum
  freightImpact : Option JSNum
  originLocation : String
  stopLocation : String
  dropClosestPingAddress : String
  date : String
deriving DecidableEq, Repr

/-- Comparator model of
`(a, b) => Math.abs(b.freightImpact || 0) - Math.abs(a.freightImpact || 0)`. -/
def penaltyLe (a b : DiversionRow) : Bool :=
  JSNum.le (JSNum.abs (jsNumOrZero b.freightImpact)) (JSNum.abs (jsNumOrZero a.freightImpact))

/-- Embeds `calculatePenaltyCandidates` (src/unnamed/part_015 lines 763-784);
the source's default limit is 20, passed explicitly by the model builder. -/
def calculatePenaltyCandidates (rows : List DiversionRow) (limit : Nat) :
    List PenaltyCandidateRow :=
  let divertedRows := rows.filter (fun r => r.isPotentialDiversion)
  ((stableSort penaltyLe (divertedRows.filter (fun r => r.freightImpact ≠ none))).take
    limit).map (fun r =>
    { journeyId := r.journeyId
      branchName := r.branchName
      consignee := r.nearestConsignee
      diffInLead := r.diffInLead
      freightImpact := r.freightImpact
      originLocation := r.originLocation
      stopLocation := r.stopLocation
      dropClosestPingAddress := r.dropClosestPingAddress
      date := r.date })

/-- The derived date-span bounds of the filter options. -/
structure DateRangeS where
  min : String
  max : String
deriving DecidableEq, Repr

/-- The filter-option vocabularies (src/unnamed/part_015 lines 379-383). -/
structure FilterOptions where
  branches : List String
  consignees : List String
  dateRange : DateRangeS
deriving DecidableEq, Repr

/-- Default `Array.prototype.sort` comparator on strings (lexicographic; the
code-unit versus code-point distinction above the BMP is not modelled). -/
def strLe (a b : String) : Bool :=
  !(decide (b < a))

/-- `date-fns` `format(d, "yyyy-MM-dd")`. -/
def formatYMD (t : Int) : String :=
  let ymd := civilFromDays (t.fdiv 86400000)
  yearStr ymd.1 ++ "-" ++ pad2 ymd.2.1 ++ "-" ++ pad2 ymd.2.2

/-- Embeds `extractFilterOptions` (src/unnamed/part_015 lines 472-497). -/
def extractFilterOptions (now : Int) (rows : List DiversionRow) : FilterOptions :=
  let st := rows.foldl
    (fun (st : List String × List String × Option Int × Option Int) r =>
      let bs := if r.branchName ≠ "" then insertIfAbsent st.1 r.branchName else st.1
      let cs :=
        if r.nearestConsignee ≠ "" then insertIfAbsent st.2.1 r.nearestConsignee
        else st.2.1
      match parseDate now (jsOrElse r.dateISO r.date) with
      | some d =>
          let mn :=
            match st.2.2.1 with
            | none => some d
            | some m => if d < m then some d else some m
          let mx :=
            match st.2.2.2 with
            | none => some d
            | some m => if m < d then some d else some m
          (bs, cs, mn, mx)
      | none => (bs, cs, st.2.2.1, st.2.2.2))
    ([], [], none, none)
  { branches := stableSort strLe st.1
    consignees := stableSort strLe st.2.1
    dateRange :=
      { min := match st.2.2.1 with | some d => formatYMD d | none => ""
        max := match st.2.2.2 with | some d => formatYMD d | none => "" } }

/-- The dashboard model snapshot (src/unnamed/part_015 lines 373-397). -/
structure DashboardModel where
  filteredRows : List DiversionRow
  totalRows : Nat
  filterOptions : FilterOptions
  scorecards : Scorecards
  branchChart : List ChartDataPoint
  consigneeChart : List ChartDataPoint
  branchTable : List BranchTableRow
  consigneeTable : List ConsigneeTableRow
  corridorTable : List CorridorTableRow
  penaltyCandidates : List PenaltyCandidateRow
deriving DecidableEq, Repr

/-- Embeds `buildDashboardModel` (src/unnamed/part_015 lines 790-821).  `now`
is the wall-clock instant the source implicitly reads (`new Date()` reference
dates inside `parseDate`). -/
def buildDashboardModel (now : Int) (allRows : List DiversionRow) (filters : FilterState) :
    DashboardModel :=
  let filterOptions := extractFilterOptions now allRows
  let filteredRows := applyFilters now allRows filters
  { filteredRows := filteredRows
    totalRows := allRows.length
    filterOptions := filterOptions
    scorecards := calculateScorecards filteredRows
    branchChart := calculateBranchChart filteredRows 10
    consigneeChart := calculateConsigneeChart filteredRows 10
    branchTable := calculateBranchTable filteredRows
    consigneeTable := calculateConsigneeTable filteredRows
    corridorTable := calculateCorridorTable filteredRows
    penaltyCandidates := calculatePenaltyCandidates filteredRows 20 }

/-- The canonical record that the empty raw object normalizes to at positional
index `i`: every text field empty, every numeric field null, the anomaly flag
false, and the id the positional placeholder. -/
def emptyRowAt (i : Nat) : DiversionRow :=
  { id := "row-" ++ toString i
    journeyId := "", customerLoadId := "", loadId := "", branchId := "", branchName := ""
    date := "", dateISO := "", createdAt := "", closedAt := "", loadStatus := ""
    originLocation := "", stopLocation := "", dropClosestPingAddress := ""
    nearestConsignee := "", nearestConsigneeCode := ""
    erpTransitDistanceKm := none, aToCDistanceKm := none, diffInLead := none
    totalDistanceTravelledKm := none, totalFreight := none
    nearestConsigneeTotalFreight := none, freightImpact := none
    isPotentialDiversion := false, shortLeadDistanceKm := none
    vehicleNumber := "", vehicleType := "", freightCalculationRemarks := ""
    statusOfTrackedMode := "", loadingTatHrs := none, actualTransitTimeDays := none }

/-- An all-empty canonical record used as a template for concrete test
records. -/
def baseRow : DiversionRow :=
  { emptyRowAt 0 with id := "" }

/-- On success, the derived fields of `normalizeRow` are the stated functions
of the parsed `Diff in lead` value. -/
theorem normalizeRow_some_derived (raw : List (String × JSValue)) (i : Nat)
    (row : DiversionRow) (h : normalizeRow raw i = some row) :
    row.isPotentialDiversion =
      (match row.diffInLead with
       | some v => JSNum.lt v (JSNum.finite 0)
       | none => false)
    ∧ row.shortLeadDistanceKm = row.diffInLead.map JSNum.abs := by
  unfold normalizeRow at h
  split at h
  · injection h with h'
    subst h'
    exact ⟨rfl, rfl⟩
  · exact Option.noConfusion h

/-- C1: for every canonical record produced by `normalizeRow`,
`isPotentialDiversion` is true iff `diffInLead` is non-null and strictly
negative; `shortLeadDistanceKm` is null when `diffInLead` is null and equals
`abs(diffInLead)` otherwise; and no field other than `diffInLead` influences
either derived value (two successful normalizations agreeing on `diffInLead`
agree on both derived fields). -/
theorem c1_derived_anomaly_fields :
    (∀ raw i row, normalizeRow raw i = some row →
      ((row.isPotentialDiversion = true ↔
          ∃ v, row.diffInLead = some v ∧ JSNum.lt v (JSNum.finite 0) = true)
        ∧ row.shortLeadDistanceKm = row.diffInLead.map JSNum.abs))
    ∧ (∀ raw₁ i₁ raw₂ i₂ row₁ row₂, normalizeRow raw₁ i₁ = some row₁ →
        normalizeRow raw₂ i₂ = some row₂ → row₁.diffInLead = row₂.diffInLead →
        row₁.isPotentialDiversion = row₂.isPotentialDiversion ∧
          row₁.shortLeadDistanceKm = row₂.shortLeadDistanceKm) := by
  constructor
  · intro raw i row h
    obtain ⟨h1, h2⟩ := normalizeRow_some_derived raw i row h
    refine ⟨?_, h2⟩
    rw [h1]
    cases row.diffInLead with
    | none => simp
    | some v => simp
  · intro raw₁ i₁ raw₂ i₂ row₁ row₂ h₁ h₂ hd
    obtain ⟨a1, a2⟩ := normalizeRow_some_derived raw₁ i₁ row₁ h₁
    obtain ⟨b1, b2⟩ := normalizeRow_some_derived raw₂ i₂ row₂ h₂
    constructor
    · rw [a1, b1, hd]
    · rw [a2, b2, hd]

/-- The record normalized from the one-field raw row used by the C1
witness. -/
def c1WitnessRow : DiversionRow :=
  { baseRow with
      id := "row-0"
      diffInLead := some (JSNum.finite (-15))
      isPotentialDiversion := true
      shortLeadDistanceKm := some (JSNum.finite 15) }

set_option maxRecDepth 100000 in
/-- Witness for C1 at two concrete raw rows: one whose `Diff in lead` column
holds `"-15"`, and empty rows at two different indices. -/
theorem c1_witness :
    ((∃ row, normalizeRow [("Diff in lead", JSValue.str "-15")] 0 = some row ∧
        (row.isPotentialDiversion = true ↔
          ∃ v, row.diffInLead = some v ∧ JSNum.lt v (JSNum.finite 0) = true))
      ∧ (emptyRowAt 7).isPotentialDiversion = (emptyRowAt 9).isPotentialDiversion) := by
  have hw : normalizeRow [("Diff in lead", JSValue.str "-15")] 0 = some c1WitnessRow := by
    with_unfolding_all rfl
  have h7 : normalizeRow [] 7 = some (emptyRowAt 7) := by rfl
  have h9 : normalizeRow [] 9 = some (emptyRowAt 9) := by rfl
  constructor
  · exact ⟨c1WitnessRow, hw,
      (c1_derived_anomaly_fields.1 [("Diff in lead", JSValue.str "-15")] 0 c1WitnessRow hw).1⟩
  · exact (c1_derived_anomaly_fields.2 [] 7 [] 9 (emptyRowAt 7) (emptyRowAt 9) h7 h9 rfl).1

/-- `safeParseNumber` never yields NaN. -/
theorem safeParseNumber_ne_nan (v : Option JSValue) :
    safeParseNumber v ≠ some JSNum.nan := by
  intro hc
  match v with
  | none => exact Option.noConfusion hc
  | some .jsNull => exact Option.noConfusion hc
  | some (.boolV b) => exact Option.noConfusion hc
  | some .objV => exact Option.noConfusion hc
  | some (.num n) =>
      simp only [safeParseNumber] at hc
      split at hc
      · exact Option.noConfusion hc
      · rename_i h
        exact h (Option.some.inj hc)
  | some (.str s) =>
      simp only [safeParseNumber] at hc
      split at hc
      · exact Option.noConfusion hc
      · split at hc
        · exact Option.noConfusion hc
        · split at hc
          · exact Option.noConfusion hc
          · rename_i hnn
            exact hnn (Option.some.inj hc)

/-- Parsed numeric fields never hold NaN. -/
theorem numVal_ne_nan (raw : List (String × JSValue)) (k : String) :
    numVal raw k ≠ some JSNum.nan := by
  unfold numVal coerceNumericField
  cases lookupKey raw k with
  | none => simpa using safeParseNumber_ne_nan none
  | some w =>
      cases w with
      | str s => simpa using safeParseNumber_ne_nan (some (.str s))
      | num n =>
          by_cases hn : n = JSNum.nan
          · simp [hn]
          · simpa [hn] using safeParseNumber_ne_nan (some (.num n))
      | jsNull => simpa using safeParseNumber_ne_nan (some .jsNull)
      | boolV b => simp
      | objV => simp

/-- `Math.abs` maps non-NaN values to non-NaN values. -/
theorem JSNum.abs_ne_nan {v : JSNum} (h : v ≠ JSNum.nan) :
    JSNum.abs v ≠ JSNum.nan := by
  cases v <;> simp_all [JSNum.abs]

set_option maxRecDepth 100000 in
/-- C3 counterexample: on the string input `"Infinity"`, `safeParseNumber`
returns positive Infinity — a non-null, non-finite float — refuting the
claim that every non-null result is finite ("never infinite"). -/
theorem c3_counterexample :
    safeParseNumber (some (JSValue.str "Infinity")) = some JSNum.inf
    ∧ JSNum.inf.isFinite = false := by
  constructor
  · with_unfolding_all rfl
  · rfl

/-- C3 (amended): `safeParseNumber` never yields NaN (though it can yield
±Infinity, e.g. for `"Infinity"`), returns null for null, undefined and the
empty string, and never throws; consequently every nullable numeric field of
a canonical record is either null or a non-NaN float. -/
theorem c3_numeric_coercion_amended :
    (∀ v, safeParseNumber v ≠ some JSNum.nan)
    ∧ safeParseNumber none = none
    ∧ safeParseNumber (some JSValue.jsNull) = none
    ∧ safeParseNumber (some (JSValue.str "")) = none
    ∧ (∀ raw i row, normalizeRow raw i = some row →
        row.erpTransitDistanceKm ≠ some JSNum.nan ∧
        row.aToCDistanceKm ≠ some JSNum.nan ∧
        row.diffInLead ≠ some JSNum.nan ∧
        row.totalDistanceTravelledKm ≠ some JSNum.nan ∧
        row.totalFreight ≠ some JSNum.nan ∧
        row.nearestConsigneeTotalFreight ≠ some JSNum.nan ∧
        row.freightImpact ≠ some JSNum.nan ∧
        row.loadingTatHrs ≠ some JSNum.nan ∧
        row.actualTransitTimeDays ≠ some JSNum.nan ∧
        row.shortLeadDistanceKm ≠ some JSNum.nan) := by
  refine ⟨safeParseNumber_ne_nan, rfl, rfl, rfl, ?_⟩
  intro raw i row h
  unfold normalizeRow at h
  split at h
  · injection h with h'
    subst h'
    refine ⟨numVal_ne_nan _ _, numVal_ne_nan _ _, numVal_ne_nan _ _, numVal_ne_nan _ _,
      numVal_ne_nan _ _, numVal_ne_nan _ _, numVal_ne_nan _ _, numVal_ne_nan _ _,
      numVal_ne_nan _ _, ?_⟩
    intro hc
    rcases Option.map_eq_some'.mp hc with ⟨v, hv, habs⟩
    have hvne : v ≠ JSNum.nan := fun hveq => numVal_ne_nan raw "Diff in lead" (hveq ▸ hv)
    exact JSNum.abs_ne_nan hvne habs
  · exact Option.noConfusion h

/-- Witness for C3 (amended) at the empty raw row. -/
theorem c3_witness :
    (emptyRowAt 0).diffInLead ≠ some JSNum.nan ∧
      (emptyRowAt 0).freightImpact ≠ some JSNum.nan :=
  ⟨(c3_numeric_coercion_amended.2.2.2.2 [] 0 (emptyRowAt 0) (by rfl)).2.2.1,
   (c3_numeric_coercion_amended.2.2.2.2 [] 0 (emptyRowAt 0) (by rfl)).2.2.2.2.2.2.1⟩

/-- C6: the scorecards' journey, consignee and branch counts are the
cardinalities of the sets of distinct non-empty values among the anomaly rows
of the input, not row counts. -/
theorem c6_scorecards_distinct_counts (rows : List DiversionRow) :
    (calculateScorecards rows).totalDivertedJourneys =
      (((rows.filter (fun r => r.isPotentialDiversion)).map (fun r => r.journeyId)).filter
        (fun s => s ≠ "")).toFinset.card
    ∧ (calculateScorecards rows).totalConsigneesInvolved =
      (((rows.filter (fun r => r.isPotentialDiversion)).map
        (fun r => r.nearestConsignee)).filter (fun s => s ≠ "")).toFinset.card
    ∧ (calculateScorecards rows).totalBranchesWithDiversions =
      (((rows.filter (fun r => r.isPotentialDiversion)).map (fun r => r.branchName)).filter
        (fun s => s ≠ "")).toFinset.card := by
  refine ⟨?_, ?_, ?_⟩ <;>
    (simp only [calculateScorecards]; rw [List.card_toFinset])

/-- Filtering by a pointwise-stronger predicate yields a result at most as
long. -/
theorem length_filter_mono {α : Type} {p q : α → Bool} (h : ∀ a, p a = true → q a = true)
    (l : List α) : (l.filter p).length ≤ (l.filter q).length := by
  induction l with
  | nil => simp
  | cons a l ih =>
      simp only [List.filter_cons]
      by_cases hp : p a = true
      · rw [if_pos hp, if_pos (h a hp)]
        simpa using ih
      · rw [if_neg hp]
        by_cases hq : q a = true
        · rw [if_pos hq]
          simp only [List.length_cons]
          omega
        · rw [if_neg hq]
          exact ih

/-- Turning `onlyDiversions` on only strengthens the per-record predicate. -/
theorem rowMatches_onlyDiversions_mono (now : Int) (f : FilterState) (r : DiversionRow)
    (h : rowMatches now { f with onlyDiversions := true } r = true) :
    rowMatches now { f with onlyDiversions := false } r = true := by
  unfold rowMatches at h ⊢
  split at h
  · exact absurd h (by simp)
  · rw [if_neg (by simp)]
    exact h

/-- C5: `applyFilters` never returns more records than it was given, and
turning `onlyDiversions` from false to true with all other filter fields
fixed never increases the result length. -/
theorem c5_filter_monotonicity :
    (∀ (now : Int) (rows : List DiversionRow) (f : FilterState),
        (applyFilters now rows f).length ≤ rows.length)
    ∧ (∀ (now : Int) (rows : List DiversionRow) (f : FilterState),
        (applyFilters now rows { f with onlyDiversions := true }).length ≤
          (applyFilters now rows { f with onlyDiversions := false }).length) := by
  constructor
  · intro now rows f
    exact List.length_filter_le _ _
  · intro now rows f
    exact length_filter_mono (fun r => rowMatches_onlyDiversions_mono now f r) rows

/-- The indexed loop of `normalizeRows` collects exactly the successful
normalizations, each at its original index, in order. -/
theorem normalizeRowsFrom_eq_filterMap (rows : List (List (String × JSValue))) :
    ∀ i, normalizeRowsFrom i rows =
      (List.enumFrom i rows).filterMap (fun p => normalizeRow p.2 p.1) := by
  induction rows with
  | nil => intro i; rfl
  | cons r rest ih =>
      intro i
      simp only [normalizeRowsFrom, List.enumFrom, List.filterMap_cons]
      cases h : normalizeRow r i with
      | none => simpa [h] using ih (i + 1)
      | some v => simpa [h] using ih (i + 1)

/-- A `filterMap` over a list on which the function always succeeds keeps the
length. -/
theorem length_filterMap_of_isSome {α β : Type} (f : α → Option β) :
    ∀ l : List α, (∀ a ∈ l, (f a).isSome = true) → (l.filterMap f).length = l.length := by
  intro l
  induction l with
  | nil => intro _; rfl
  | cons a l ih =>
      intro h
      rcases Option.isSome_iff_exists.mp (h a (by simp)) with ⟨b, hb⟩
      simp only [List.filterMap_cons, hb, List.length_cons]
      rw [ih (fun x hx => h x (by simp [hx]))]

/-- C9: `normalizeRows` returns exactly the records of the rows on which
`normalizeRow` succeeds, in the rows' original relative order (never
throwing); in particular, a batch whose only failing row is `bad` yields
`length - 1` records, with every other row still normalized at its original
positional index. -/
theorem c9_normalizeRows_skip_and_continue :
    (∀ rows, normalizeRows rows =
      rows.enum.filterMap (fun p => normalizeRow p.2 p.1))
    ∧ (∀ xs bad ys, normalizeRow bad xs.length = none →
        (∀ p ∈ xs.enum, (normalizeRow p.2 p.1).isSome = true) →
        (∀ p ∈ List.enumFrom (xs.length + 1) ys, (normalizeRow p.2 p.1).isSome = true) →
        normalizeRows (xs ++ bad :: ys) =
          xs.enum.filterMap (fun p => normalizeRow p.2 p.1) ++
            (List.enumFrom (xs.length + 1) ys).filterMap (fun p => normalizeRow p.2 p.1)
        ∧ (normalizeRows (xs ++ bad :: ys)).length = (xs ++ bad :: ys).length - 1) := by
  have base : ∀ rows, normalizeRows rows =
      rows.enum.filterMap (fun p => normalizeRow p.2 p.1) :=
    fun rows => normalizeRowsFrom_eq_filterMap rows 0
  refine ⟨base, ?_⟩
  intro xs bad ys hbad hxs hys
  have hsplit : normalizeRows (xs ++ bad :: ys) =
      xs.enum.filterMap (fun p => normalizeRow p.2 p.1) ++
        (List.enumFrom (xs.length + 1) ys).filterMap (fun p => normalizeRow p.2 p.1) := by
    rw [base]
    unfold List.enum
    rw [List.enumFrom_append, List.filterMap_append]
    simp [List.enumFrom, List.filterMap_cons, hbad]
  refine ⟨hsplit, ?_⟩
  rw [hsplit, List.length_append,
    length_filterMap_of_isSome _ _ hxs, length_filterMap_of_isSome _ _ hys]
  simp only [List.enum_length, List.enumFrom_length, List.length_append, List.length_cons]
  omega

/-- Witness for C9: a three-row batch whose middle row fails validation (a
numeric `created_at`) yields the two surrounding rows' records, at their
original indices, and length `3 - 1`. -/
theorem c9_witness :
    normalizeRows [[], [("created_at", JSValue.num (JSNum.finite 5))], []] =
      [emptyRowAt 0, emptyRowAt 2]
    ∧ (normalizeRows [[], [("created_at", JSValue.num (JSNum.finite 5))], []]).length =
      [[], [("created_at", JSValue.num (JSNum.finite 5))], []].length - 1 := by
  have h := c9_normalizeRows_skip_and_continue.2 [[]]
    [("created_at", JSValue.num (JSNum.finite 5))] [[]]
    (by decide) (by decide) (by decide)
  exact ⟨h.1.trans (by with_unfolding_all rfl), h.2⟩

/-- True exactly on string and null raw values. -/
def isStrOrNull : JSValue → Bool
  | .str _ => true
  | .jsNull => true
  | _ => false

/-- String and null values are accepted by every field kind; absent keys
too. -/
theorem fieldOk_of_strOrNull (kind : FieldKind) :
    ∀ v : Option JSValue, (∀ w, v = some w → isStrOrNull w = true) →
      fieldOk kind v = true := by
  intro v hv
  match v with
  | none => cases kind <;> rfl
  | some (.str s) => cases kind <;> rfl
  | some .jsNull => cases kind <;> rfl
  | some (.num n) => exact absurd (hv _ rfl) (by simp [isStrOrNull])
  | some (.boolV b) => exact absurd (hv _ rfl) (by simp [isStrOrNull])
  | some .objV => exact absurd (hv _ rfl) (by simp [isStrOrNull])

/-- C10: `normalizeRow` succeeds on every raw row whose present field values
are all strings or null (the empty object included, its id falling back to
the positional placeholder), and a validation failure occurs exactly when
some schema column's value is outside its accepted union — such as any number
in a date-typed column, any boolean, any nested object, or a raw NaN number
in any column (zod parses NaN as its own type, so every union rejects it). -/
theorem c10_schema_totality :
    (∀ raw i, (∀ p ∈ raw, isStrOrNull p.2 = true) → (normalizeRow raw i).isSome = true)
    ∧ (∀ i, ∃ row, normalizeRow [] i = some row ∧ row.id = "row-" ++ toString i)
    ∧ (∀ raw i, normalizeRow raw i = none ↔
        ∃ p ∈ schemaFields, fieldOk p.2 (lookupKey raw p.1) = false)
    ∧ (∀ x, fieldOk FieldKind.dateF (some (JSValue.num x)) = false)
    ∧ (∀ kind b, fieldOk kind (some (JSValue.boolV b)) = false)
    ∧ (∀ kind, fieldOk kind (some JSValue.objV) = false)
    ∧ (∀ kind, fieldOk kind (some (JSValue.num JSNum.nan)) = false) := by
  have hall : ∀ (raw : List (String × JSValue)), (∀ p ∈ raw, isStrOrNull p.2 = true) →
      schemaFields.all (fun p => fieldOk p.2 (lookupKey raw p.1)) = true := by
    intro raw hraw
    rw [List.all_eq_true]
    intro p _
    apply fieldOk_of_strOrNull
    intro w hw
    unfold lookupKey at hw
    rcases Option.map_eq_some'.mp hw with ⟨pr, hfind, hsnd⟩
    exact hsnd ▸ hraw pr (List.mem_of_find?_eq_some hfind)
  refine ⟨?_, ?_, ?_, ?_, ?_, ?_, ?_⟩
  · intro raw i hraw
    simp [normalizeRow, hall raw hraw]
  · intro i
    exact ⟨emptyRowAt i, by rfl, rfl⟩
  · intro raw i
    constructor
    · intro hnone
      by_contra hex
      push_neg at hex
      have hall2 : schemaFields.all (fun p => fieldOk p.2 (lookupKey raw p.1)) = true := by
        rw [List.all_eq_true]
        intro p hp
        cases hb : fieldOk p.2 (lookupKey raw p.1) with
        | false => exact absurd hb (hex p hp)
        | true => rfl
      simp [normalizeRow, hall2] at hnone
    · rintro ⟨p, hp, hbad⟩
      have hall2 : schemaFields.all (fun p => fieldOk p.2 (lookupKey raw p.1)) = false := by
        rw [List.all_eq_false]
        exact ⟨p, hp, by simp [hbad]⟩
      simp [normalizeRow, hall2]
  · intro x; rfl
  · intro kind b; cases kind <;> rfl
  · intro kind; cases kind <;> rfl
  · intro kind; cases kind <;> rfl

/-- Witness for C10: a string/null-valued row normalizes, the empty object
normalizes with the positional id, and a numeric `closed_at` fails. -/
theorem c10_witness :
    (normalizeRow [("journey_id", JSValue.str "J1"), ("branch_name", JSValue.jsNull)] 4).isSome
      = true
    ∧ (∃ row, normalizeRow [] 6 = some row ∧ row.id = "row-" ++ toString 6)
    ∧ (normalizeRow [("closed_at", JSValue.num (JSNum.finite 7))] 0 = none ↔
        ∃ p ∈ schemaFields,
          fieldOk p.2 (lookupKey [("closed_at", JSValue.num (JSNum.finite 7))] p.1) = false) :=
  ⟨c10_schema_totality.1 _ 4 (by decide), c10_schema_totality.2.1 6,
    c10_schema_totality.2.2.1 _ 0⟩

/-- C2: `buildDashboardModel` is deterministic: its output does not depend on
the wall-clock instant `now` (the only ambient input the source reads, as the
`date-fns` reference date inside `parseDate`), so two calls at different
times with the same records and filters produce equal (deep-equal) models. -/
theorem c2_build_clock_independent :
    ∀ now₁ now₂ rows filters,
      buildDashboardModel now₁ rows filters = buildDashboardModel now₂ rows filters :=
  fun _ _ _ _ => rfl

/-- Stable insertion permutes to consing. -/
theorem perm_insertR {α : Type} (le : α → α → Bool) (a : α) (l : List α) :
    List.Perm (insertR le a l) (a :: l) := by
  induction l with
  | nil => simp [insertR]
  | cons b l ih =>
      unfold insertR
      by_cases h : le b a = true
      · rw [if_pos h]
        exact (List.Perm.cons b ih).trans (List.Perm.swap a b l)
      · rw [if_neg h]

/-- Membership through stable insertion. -/
theorem mem_insertR {α : Type} {le : α → α → Bool} {a x : α} {l : List α} :
    x ∈ insertR le a l ↔ x = a ∨ x ∈ l := by
  rw [(perm_insertR le a l).mem_iff]
  simp

/-- Stable insertion preserves sortedness for a total transitive comparator. -/
theorem pairwise_insertR {α : Type} {le : α → α → Bool}
    (htrans : ∀ a b c, le a b = true → le b c = true → le a c = true)
    (htotal : ∀ a b, le a b = true ∨ le b a = true)
    (a : α) : ∀ {l : List α}, l.Pairwise (fun x y => le x y = true) →
      (insertR le a l).Pairwise (fun x y => le x y = true) := by
  intro l
  induction l with
  | nil => intro _; simp [insertR]
  | cons b l ih =>
      intro h
      rcases List.pairwise_cons.mp h with ⟨hb, hl⟩
      unfold insertR
      by_cases hba : le b a = true
      · rw [if_pos hba]
        refine List.pairwise_cons.mpr ⟨?_, ih hl⟩
        intro x hx
        rcases mem_insertR.mp hx with rfl | hxl
        · exact hba
        · exact hb x hxl
      · rw [if_neg hba]
        have hab : le a b = true := (htotal a b).resolve_right hba
        refine List.pairwise_cons.mpr ⟨?_, h⟩
        intro x hx
        rcases List.mem_cons.mp hx with rfl | hxl
        · exact hab
        · exact htrans a b x hab (hb x hxl)

/-- The insertion fold is sorted from any sorted accumulator. -/
theorem pairwise_foldl_insertR {α : Type} {le : α → α → Bool}
    (htrans : ∀ a b c, le a b = true → le b c = true → le a c = true)
    (htotal : ∀ a b, le a b = true ∨ le b a = true) :
    ∀ (l acc : List α), acc.Pairwise (fun x y => le x y = true) →
      (List.foldl (fun acc a => insertR le a acc) acc l).Pairwise
        (fun x y => le x y = true)
  | [], _, h => h
  | a :: l, acc, h =>
      pairwise_foldl_insertR htrans htotal l (insertR le a acc)
        (pairwise_insertR htrans htotal a h)

/-- The modelled stable sort is sorted for a total transitive comparator. -/
theorem sorted_stableSort {α : Type} {le : α → α → Bool}
    (htrans : ∀ a b c, le a b = true → le b c = true → le a c = true)
    (htotal : ∀ a b, le a b = true ∨ le b a = true) (l : List α) :
    (stableSort le l).Pairwise (fun x y => le x y = true) :=
  pairwise_foldl_insertR htrans htotal l [] (by simp)

/-- The insertion fold permutes to appending. -/
theorem perm_foldl_insertR {α : Type} (le : α → α → Bool) :
    ∀ (l acc : List α),
      List.Perm (List.foldl (fun acc a => insertR le a acc) acc l) (acc ++ l)
  | [], acc => by simp
  | a :: l, acc => by
      have h1 := perm_foldl_insertR le l (insertR le a acc)
      refine h1.trans ?_
      have h2 : List.Perm (insertR le a acc ++ l) ((a :: acc) ++ l) :=
        (perm_insertR le a acc).append_right l
      exact h2.trans List.perm_middle.symm

/-- The modelled stable sort permutes its input. -/
theorem perm_stableSort {α : Type} (le : α → α → Bool) (l : List α) :
    List.Perm (stableSort le l) l := by
  simpa using perm_foldl_insertR le l []

/-- Membership through the modelled stable sort. -/
theorem mem_stableSort {α : Type} {le : α → α → Bool} {x : α} {l : List α} :
    x ∈ stableSort le l ↔ x ∈ l :=
  (perm_stableSort le l).mem_iff

/-- Lookup after a `Map.set`-style update. -/
theorem lookupA_updateAssoc {β : Type} (m : List (String × β)) (k k' : String)
    (f : Option β → β) :
    lookupA (updateAssoc m k f) k' =
      if k = k' then some (f (lookupA m k)) else lookupA m k' := by
  induction m with
  | nil =>
      by_cases h : k = k'
      · simp [updateAssoc, lookupA, h]
      · simp [updateAssoc, lookupA, h]
  | cons p rest ih =>
      obtain ⟨k0, v⟩ := p
      unfold updateAssoc
      by_cases h0 : k0 = k
      · subst h0
        rw [if_pos rfl]
        by_cases h1 : k0 = k'
        · subst h1
          simp [lookupA]
        · simp [lookupA, h1]
      · rw [if_neg h0]
        by_cases h1 : k0 = k'
        · subst h1
          have hkk : ¬(k = k0) := fun hc => h0 hc.symm
          simp [lookupA, hkk]
        · simp [lookupA, h1, h0, ih]

/-- Every entry after an update is an old entry or the updated one. -/
theorem mem_updateAssoc {β : Type} :
    ∀ {m : List (String × β)} {k : String} {f : Option β → β} {p : String × β},
      p ∈ updateAssoc m k f → p ∈ m ∨ (p.1 = k ∧ p.2 = f (lookupA m k))
  | [], k, f, p, hp => by
      simp [updateAssoc] at hp
      subst hp
      exact Or.inr ⟨rfl, by simp [lookupA]⟩
  | (k0, v) :: rest, k, f, p, hp => by
      unfold updateAssoc at hp
      by_cases h0 : k0 = k
      · subst h0
        rw [if_pos rfl] at hp
        rcases List.mem_cons.mp hp with rfl | hrest
        · exact Or.inr ⟨rfl, by simp [lookupA]⟩
        · exact Or.inl (List.mem_cons_of_mem _ hrest)
      · rw [if_neg h0] at hp
        rcases List.mem_cons.mp hp with rfl | hrest
        · exact Or.inl (List.mem_cons_self _ _)
        · rcases mem_updateAssoc hrest with hm | ⟨hk, hv⟩
          · exact Or.inl (List.mem_cons_of_mem _ hm)
          · refine Or.inr ⟨hk, ?_⟩
            rw [hv]
            have : lookupA ((k0, v) :: rest) k = lookupA rest k := by
              simp [lookupA, h0]
            rw [this]

/-- A key is absent exactly when lookup fails. -/
theorem lookupA_eq_none_iff {β : Type} :
    ∀ {m : List (String × β)} {k : String},
      lookupA m k = none ↔ k ∉ m.map Prod.fst
  | [], k => by simp [lookupA]
  | (k0, v) :: rest, k => by
      by_cases h0 : k0 = k
      · subst h0
        simp [lookupA]
      · simp only [lookupA, if_neg h0, List.map_cons, List.mem_cons]
        rw [lookupA_eq_none_iff]
        constructor
        · intro h hc
          rcases hc with hc | hc
          · exact h0 hc.symm
          · exact h hc
        · intro h hc
          exact h (Or.inr hc)

/-- Keys after an update: unchanged when the key was present, appended
otherwise. -/
theorem keys_updateAssoc {β : Type} :
    ∀ (m : List (String × β)) (k : String) (f : Option β → β),
      (lookupA m k = none →
        (updateAssoc m k f).map Prod.fst = m.map Prod.fst ++ [k])
      ∧ (∀ v, lookupA m k = some v →
        (updateAssoc m k f).map Prod.fst = m.map Prod.fst)
  | [], k, f => by
      constructor
      · intro _; simp [updateAssoc]
      · intro v hv; simp [lookupA] at hv
  | (k0, v0) :: rest, k, f => by
      by_cases h0 : k0 = k
      · subst h0
        constructor
        · intro hnone
          simp [lookupA] at hnone
        · intro v hv
          simp [updateAssoc]
      · constructor
        · intro hnone
          have hrest : lookupA rest k = none := by
            simpa [lookupA, h0] using hnone
          simp only [updateAssoc, if_neg h0, List.map_cons]
          rw [((keys_updateAssoc rest k f).1) hrest]
          simp
        · intro v hv
          have hrest : lookupA rest k = some v := by
            simpa [lookupA, h0] using hv
          simp only [updateAssoc, if_neg h0, List.map_cons]
          rw [((keys_updateAssoc rest k f).2) v hrest]

/-- Updates preserve key distinctness. -/
theorem nodup_keys_updateAssoc {β : Type} {m : List (String × β)}
    (h : (m.map Prod.fst).Nodup) (k : String) (f : Option β → β) :
    ((updateAssoc m k f).map Prod.fst).Nodup := by
  cases hk : lookupA m k with
  | none =>
      rw [(keys_updateAssoc m k f).1 hk]
      simp only [List.nodup_append]
      exact ⟨h, List.nodup_singleton k, by
        intro x hx hy
        simp at hy
        subst hy
        exact (lookupA_eq_none_iff.mp hk) hx⟩
  | some v =>
      rw [(keys_updateAssoc m k f).2 v hk]
      exact h

/-- A successful lookup exhibits a member. -/
theorem mem_of_lookupA {β : Type} :
    ∀ {m : List (String × β)} {k : String} {v : β},
      lookupA m k = some v → (k, v) ∈ m
  | [], k, v, h => by simp [lookupA] at h
  | (k0, v0) :: rest, k, v, h => by
      by_cases h0 : k0 = k
      · subst h0
        simp [lookupA] at h
        subst h
        exact List.mem_cons_self _ _
      · rw [lookupA, if_neg h0] at h
        exact List.mem_cons_of_mem _ (mem_of_lookupA h)

/-- Under distinct keys, membership determines lookup. -/
theorem lookupA_eq_of_mem {β : Type} :
    ∀ {m : List (String × β)}, (m.map Prod.fst).Nodup →
      ∀ {p : String × β}, p ∈ m → lookupA m p.1 = some p.2
  | [], _, p, hp => by simp at hp
  | (k0, v0) :: rest, h, p, hp => by
      rcases List.mem_cons.mp hp with rfl | hrest
      · simp [lookupA]
      · have hk : p.1 ≠ k0 := by
          intro hc
          have : k0 ∈ rest.map Prod.fst := by
            rw [← hc]
            exact List.mem_map_of_mem Prod.fst hrest
          exact (List.nodup_cons.mp (by simpa using h)).1 this
        rw [lookupA, if_neg (fun hc => hk hc.symm)]
        exact lookupA_eq_of_mem (List.nodup_cons.mp (by simpa using h)).2 hrest

/-- Count and first-row origin/destination of each corridor group, as an
invariant of the grouping fold. -/
theorem corrFold_lookup :
    ∀ (L : List DiversionRow) (m : List (String × CorrAcc)) (k : String) (v : CorrAcc),
      lookupA (List.foldl corrStep m L) k = some v →
      (∀ w, lookupA m k = some w →
        v.count = w.count + (L.filter (fun r => corrKey r = k)).length
        ∧ v.origin = w.origin ∧ v.destination = w.destination)
      ∧ (lookupA m k = none →
        v.count = (L.filter (fun r => corrKey r = k)).length
        ∧ ∃ r, r ∈ L ∧ corrKey r = k ∧ v.origin = corrOrigin r ∧ v.destination = corrDest r)
  | [], m, k, v, h => by
      simp only [List.foldl_nil] at h
      constructor
      · intro w hw
        rw [h] at hw
        cases Option.some.inj hw
        simp
      · intro hnone
        rw [h] at hnone
        exact Option.noConfusion hnone
  | r :: L, m, k, v, h => by
      simp only [List.foldl_cons] at h
      have ih := corrFold_lookup L (corrStep m r) k v h
      have hstep : lookupA (corrStep m r) k =
          if corrKey r = k then some (corrUpd r (lookupA m (corrKey r)))
          else lookupA m k := by
        rw [show corrStep m r = updateAssoc m (corrKey r) (corrUpd r) from rfl]
        exact lookupA_updateAssoc m (corrKey r) k (corrUpd r)
      by_cases hk : corrKey r = k
      · rw [if_pos hk, hk] at hstep
        have hfilter : ((r :: L).filter (fun x => corrKey x = k)).length =
            (L.filter (fun x => corrKey x = k)).length + 1 := by
          simp [List.filter_cons, hk]
        constructor
        · intro w hw
          rw [hw] at hstep
          have hmain := ih.1 (corrUpd r (some w)) hstep
          have hc : (corrUpd r (some w)).count = w.count + 1 := rfl
          have ho : (corrUpd r (some w)).origin = w.origin := rfl
          have hd : (corrUpd r (some w)).destination = w.destination := rfl
          refine ⟨?_, hmain.2.1.trans ho, hmain.2.2.trans hd⟩
          rw [hfilter]
          have h1 := hmain.1
          omega
        · intro hnone
          rw [hnone] at hstep
          have hmain := ih.1 (corrUpd r none) hstep
          have hc : (corrUpd r none).count = 1 := rfl
          have ho : (corrUpd r none).origin = corrOrigin r := rfl
          have hd : (corrUpd r none).destination = corrDest r := rfl
          refine ⟨?_, r, List.mem_cons_self r L, hk,
            hmain.2.1.trans ho, hmain.2.2.trans hd⟩
          rw [hfilter]
          have h1 := hmain.1
          omega
      · rw [if_neg hk] at hstep
        have hfilter : ((r :: L).filter (fun x => corrKey x = k)).length =
            (L.filter (fun x => corrKey x = k)).length := by
          simp [List.filter_cons, hk]
        constructor
        · intro w hw
          have hmain := ih.1 w (hstep.trans hw)
          refine ⟨?_, hmain.2.1, hmain.2.2⟩
          rw [hfilter]
          exact hmain.1
        · intro hnone
          have hmain := ih.2 (hstep.trans hnone)
          rcases hmain with ⟨hcount, rr, hmem, hkey, ho, hd⟩
          exact ⟨by rw [hfilter]; exact hcount,
            rr, List.mem_cons_of_mem _ hmem, hkey, ho, hd⟩

/-- A key present before the corridor fold is still present after it. -/
theorem corrFold_isSome_preserved :
    ∀ (L : List DiversionRow) (m : List (String × CorrAcc)) (k : String),
      (lookupA m k).isSome = true →
      (lookupA (List.foldl corrStep m L) k).isSome = true
  | [], _, _, h => h
  | r :: L, m, k, h => by
      simp only [List.foldl_cons]
      apply corrFold_isSome_preserved L
      rw [show corrStep m r = updateAssoc m (corrKey r) (corrUpd r) from rfl,
        lookupA_updateAssoc]
      by_cases hk : corrKey r = k
      · rw [if_pos hk]; rfl
      · rw [if_neg hk]; exact h

/-- Every processed row's corridor key ends up in the grouping map. -/
theorem corrFold_mem_isSome :
    ∀ (L : List DiversionRow) (m : List (String × CorrAcc)) (r : DiversionRow),
      r ∈ L → (lookupA (List.foldl corrStep m L) (corrKey r)).isSome = true
  | [], _, _, hr => by simp at hr
  | r0 :: L, m, r, hr => by
      simp only [List.foldl_cons]
      rcases List.mem_cons.mp hr with rfl | hL
      · apply corrFold_isSome_preserved
        rw [show corrStep m r = updateAssoc m (corrKey r) (corrUpd r) from rfl,
          lookupA_updateAssoc, if_pos rfl]
        rfl
      · exact corrFold_mem_isSome L (corrStep m r0) r hL

/-- The corridor grouping map has distinct keys. -/
theorem corrFold_nodup_keys :
    ∀ (L : List DiversionRow) (m : List (String × CorrAcc)),
      (m.map Prod.fst).Nodup → ((List.foldl corrStep m L).map Prod.fst).Nodup
  | [], _, h => h
  | r :: L, m, h =>
      corrFold_nodup_keys L (corrStep m r) (nodup_keys_updateAssoc h (corrKey r) (corrUpd r))

/-- The corridor comparator is transitive. -/
theorem corrTableLe_trans : ∀ a b c : CorridorTableRow,
    corrTableLe a b = true → corrTableLe b c = true → corrTableLe a c = true := by
  intro a b c hab hbc
  simp only [corrTableLe, decide_eq_true_eq] at *
  omega

/-- The corridor comparator is total. -/
theorem corrTableLe_total : ∀ a b : CorridorTableRow,
    corrTableLe a b = true ∨ corrTableLe b a = true := by
  intro a b
  simp only [corrTableLe, decide_eq_true_eq]
  omega

/-- C7 (amended): `calculateCorridorTable` groups the anomaly rows by the
joined string key origin + `"|||"` + destination (with `"Unknown"`
substituted for an empty side, so missing-location rows still form a group);
whenever that key is injective on the substituted pairs — in particular
whenever no location contains `"|||"` — this is exactly grouping by the
ordered pair: each output row's count is the number of anomaly rows with its
(origin, destination) pair and every anomaly row's pair appears.  The rows
are sorted non-increasing by occurrence count (not recovery), so a corridor
occurring twice is ranked above any corridor occurring once. -/
theorem c7_corridor_table_amended (rows : List DiversionRow)
    (hinj : ∀ r₁, r₁ ∈ rows → ∀ r₂, r₂ ∈ rows → r₁.isPotentialDiversion = true →
      r₂.isPotentialDiversion = true → corrKey r₁ = corrKey r₂ →
      corrOrigin r₁ = corrOrigin r₂ ∧ corrDest r₁ = corrDest r₂) :
    (calculateCorridorTable rows).Pairwise (fun a b => b.count ≤ a.count)
    ∧ (∀ t, t ∈ calculateCorridorTable rows →
        t.count = ((rows.filter (fun r => r.isPotentialDiversion)).filter
          (fun r => corrOrigin r = t.origin ∧ corrDest r = t.destination)).length)
    ∧ (∀ r, r ∈ rows → r.isPotentialDiversion = true →
        ∃ t, t ∈ calculateCorridorTable rows ∧
          t.origin = corrOrigin r ∧ t.destination = corrDest r)
    ∧ (∀ (i j : Fin (calculateCorridorTable rows).length),
        ((calculateCorridorTable rows).get i).count = 2 →
        ((calculateCorridorTable rows).get j).count = 1 → (i : Nat) < (j : Nat)) := by
  have hpair : (calculateCorridorTable rows).Pairwise (fun a b => b.count ≤ a.count) := by
    have h1 : (calculateCorridorTable rows).Pairwise
        (fun a b => corrTableLe a b = true) :=
      sorted_stableSort corrTableLe_trans corrTableLe_total _
    exact h1.imp (fun h => by simpa [corrTableLe, decide_eq_true_eq] using h)
  have hnodup : (((rows.filter (fun r => r.isPotentialDiversion)).foldl
      corrStep []).map Prod.fst).Nodup :=
    corrFold_nodup_keys _ [] (by simp)
  have hmemL : ∀ x, x ∈ rows.filter (fun r => r.isPotentialDiversion) →
      x ∈ rows ∧ x.isPotentialDiversion = true := by
    intro x hx
    have := List.mem_filter.mp hx
    exact ⟨this.1, by simpa using this.2⟩
  have hcount : ∀ t, t ∈ calculateCorridorTable rows →
      t.count = ((rows.filter (fun r => r.isPotentialDiversion)).filter
        (fun r => corrOrigin r = t.origin ∧ corrDest r = t.destination)).length := by
    intro t ht
    have ht2 : t ∈ ((rows.filter (fun r => r.isPotentialDiversion)).foldl
        corrStep []).map corrRowOf := mem_stableSort.mp ht
    rcases List.mem_map.mp ht2 with ⟨p, hpmem, hpt⟩
    have hlook : lookupA ((rows.filter (fun r => r.isPotentialDiversion)).foldl
        corrStep []) p.1 = some p.2 := lookupA_eq_of_mem hnodup hpmem
    have inv := (corrFold_lookup _ [] p.1 p.2 hlook).2 rfl
    rcases inv with ⟨hcnt, r0, hr0L, hkey0, ho0, hd0⟩
    have heq : ∀ x, x ∈ rows.filter (fun r => r.isPotentialDiversion) →
        (decide (corrKey x = p.1) = decide (corrOrigin x = t.origin ∧ corrDest x = t.destination)) := by
      intro x hx
      rw [decide_eq_decide]
      have hto : t.origin = p.2.origin := by rw [← hpt]; rfl
      have htd : t.destination = p.2.destination := by rw [← hpt]; rfl
      constructor
      · intro hkx
        have hij := hinj x (hmemL x hx).1 r0 (hmemL r0 hr0L).1 (hmemL x hx).2
          (hmemL r0 hr0L).2 (hkx.trans hkey0.symm)
        exact ⟨by rw [hij.1, hto, ho0], by rw [hij.2, htd, hd0]⟩
      · intro ⟨hox, hdx⟩
        have : corrKey x = corrKey r0 := by
          unfold corrKey
          rw [hox, hdx, hto, ho0, htd, hd0]
        exact this.trans hkey0
    have hfc := List.filter_congr heq
    have htc : t.count = p.2.count := by rw [← hpt]; rfl
    rw [htc, hcnt, hfc]
  have hexist : ∀ r, r ∈ rows → r.isPotentialDiversion = true →
      ∃ t, t ∈ calculateCorridorTable rows ∧
        t.origin = corrOrigin r ∧ t.destination = corrDest r := by
    intro r hr hpot
    have hrL : r ∈ rows.filter (fun x => x.isPotentialDiversion) :=
      List.mem_filter.mpr ⟨hr, by simpa using hpot⟩
    have hsome := corrFold_mem_isSome _ [] r hrL
    rcases Option.isSome_iff_exists.mp hsome with ⟨v, hv⟩
    have inv := (corrFold_lookup _ [] (corrKey r) v hv).2 rfl
    rcases inv with ⟨_, r0, hr0L, hkey0, ho0, hd0⟩
    have hij := hinj r0 (hmemL r0 hr0L).1 r hr (hmemL r0 hr0L).2 hpot hkey0
    refine ⟨corrRowOf (corrKey r, v), ?_, ?_, ?_⟩
    · apply mem_stableSort.mpr
      exact List.mem_map_of_mem corrRowOf (mem_of_lookupA hv)
    · show v.origin = corrOrigin r
      rw [ho0, hij.1]
    · show v.destination = corrDest r
      rw [hd0, hij.2]
  refine ⟨hpair, hcount, hexist, ?_⟩
  intro i j h2 h1
  by_contra hij
  have hle : (j : Nat) ≤ (i : Nat) := Nat.not_lt.mp hij
  rcases Nat.lt_or_eq_of_le hle with hlt | heq
  · have hp := List.pairwise_iff_get.mp hpair j i hlt
    rw [h1, h2] at hp
    omega
  · have : j = i := Fin.ext heq
    subst this
    rw [h2] at h1
    exact absurd h1 (by omega)

/-- An anomaly row whose origin itself contains the corridor key
separator. -/
def c7rowA : DiversionRow :=
  { baseRow with
      originLocation := "A|||B"
      stopLocation := "C"
      diffInLead := some (JSNum.finite (-10))
      isPotentialDiversion := true
      shortLeadDistanceKm := some (JSNum.finite 10) }

/-- An anomaly row with a different (origin, destination) pair that collides
with `c7rowA`'s joined key. -/
def c7rowB : DiversionRow :=
  { baseRow with
      originLocation := "A"
      stopLocation := "B|||C"
      diffInLead := some (JSNum.finite (-20))
      isPotentialDiversion := true
      shortLeadDistanceKm := some (JSNum.finite 20) }

set_option maxRecDepth 100000 in
/-- C7 counterexample: the rows (`"A|||B"`, `"C"`) and (`"A"`, `"B|||C"`)
have two distinct ordered (origin, destination) pairs, yet the corridor table
merges them into a single group, because the grouping key is the joined
string origin + `"|||"` + destination and both rows produce the key
`"A|||B|||C"`.  Grouping by the ordered pair, as the claim states, would
yield two groups. -/
theorem c7_counterexample :
    (calculateCorridorTable [c7rowA, c7rowB]).length = 1
    ∧ (([c7rowA, c7rowB].map (fun r => (corrOrigin r, corrDest r))).dedup).length = 2 := by
  constructor
  · with_unfolding_all rfl
  · with_unfolding_all rfl

/-- Concrete corridor rows for the C7 witness: the (A, B) corridor occurs
twice with zero recovery, the (C, D) corridor once with higher recovery. -/
def c7w1 : DiversionRow :=
  { baseRow with
      originLocation := "A"
      stopLocation := "B"
      diffInLead := some (JSNum.finite (-5))
      isPotentialDiversion := true
      shortLeadDistanceKm := some (JSNum.finite 5) }

/-- Second occurrence of the (A, B) corridor. -/
def c7w2 : DiversionRow :=
  { baseRow with
      originLocation := "A"
      stopLocation := "B"
      diffInLead := some (JSNum.finite (-6))
      isPotentialDiversion := true
      shortLeadDistanceKm := some (JSNum.finite 6) }

/-- A once-occurring corridor with higher recovery. -/
def c7w3 : DiversionRow :=
  { baseRow with
      originLocation := "C"
      stopLocation := "D"
      diffInLead := some (JSNum.finite (-7))
      isPotentialDiversion := true
      shortLeadDistanceKm := some (JSNum.finite 7)
      freightImpact := some (JSNum.finite (-9000)) }

set_option maxRecDepth 100000 in
/-- Witness for C7 (amended) on a concrete separator-free input: the table is
sorted non-increasing by count, and the twice-occurring (A, B) corridor has
count 2 computed by pair-grouping. -/
theorem c7_witness :
    (calculateCorridorTable [c7w1, c7w2, c7w3]).Pairwise (fun a b => b.count ≤ a.count)
    ∧ ∀ t, t ∈ calculateCorridorTable [c7w1, c7w2, c7w3] →
        t.count = (([c7w1, c7w2, c7w3].filter (fun r => r.isPotentialDiversion)).filter
          (fun r => corrOrigin r = t.origin ∧ corrDest r = t.destination)).length :=
  ⟨(c7_corridor_table_amended [c7w1, c7w2, c7w3] (by decide)).1,
   (c7_corridor_table_amended [c7w1, c7w2, c7w3] (by decide)).2.1⟩

/-- `Set.add` keeps distinctness. -/
theorem nodup_insertIfAbsent {l : List String} (h : l.Nodup) (s : String) :
    (insertIfAbsent l s).Nodup := by
  unfold insertIfAbsent
  by_cases hs : s ∈ l
  · rw [if_pos hs]; exact h
  · rw [if_neg hs]
    simp only [List.nodup_append, List.nodup_singleton]
    exact ⟨h, trivial, by
      intro x hx hxs
      simp at hxs
      subst hxs
      exact hs hx⟩

/-- `Set.add` adds the element to the member set. -/
theorem toFinset_insertIfAbsent (l : List String) (s : String) :
    (insertIfAbsent l s).toFinset = insert s l.toFinset := by
  unfold insertIfAbsent
  by_cases hs : s ∈ l
  · rw [if_pos hs]
    exact (Finset.insert_eq_self.mpr (List.mem_toFinset.mpr hs)).symm
  · rw [if_neg hs]
    ext x
    simp [or_comm]

/-- The member-set of a `Set.add` fold. -/
theorem toFinset_foldl_insertIfAbsent :
    ∀ (xs l : List String), (xs.foldl insertIfAbsent l).toFinset = l.toFinset ∪ xs.toFinset
  | [], l => by simp
  | x :: xs, l => by
      simp only [List.foldl_cons]
      rw [toFinset_foldl_insertIfAbsent xs (insertIfAbsent l x), toFinset_insertIfAbsent]
      ext y
      simp only [Finset.mem_union, Finset.mem_insert, List.toFinset_cons, List.mem_toFinset]
      tauto

/-- Distinctness of a `Set.add` fold. -/
theorem nodup_foldl_insertIfAbsent :
    ∀ (xs l : List String), l.Nodup → (xs.foldl insertIfAbsent l).Nodup
  | [], _, h => h
  | x :: xs, l, h =>
      nodup_foldl_insertIfAbsent xs (insertIfAbsent l x) (nodup_insertIfAbsent h x)

/-- The consignee fold never creates an empty-string key. -/
theorem consFold_empty_key :
    ∀ (L : List DiversionRow) (m : List (String × ConsAcc)),
      lookupA m "" = none → lookupA (List.foldl consStep m L) "" = none
  | [], _, h => h
  | r :: L, m, h => by
      simp only [List.foldl_cons]
      apply consFold_empty_key L
      unfold consStep
      by_cases hc : r.nearestConsignee = ""
      · rw [if_pos hc]; exact h
      · rw [if_neg hc, lookupA_updateAssoc, if_neg hc]
        exact h

/-- The group journey sets of the consignee fold: each group's accumulated
journey list is the `Set.add` fold of the non-empty journey ids of the rows
with that consignee, in order. -/
theorem consFold_lookup :
    ∀ (L : List DiversionRow) (m : List (String × ConsAcc)), lookupA m "" = none →
      ∀ (k : String) (v : ConsAcc),
      lookupA (List.foldl consStep m L) k = some v →
      (∀ w, lookupA m k = some w →
        v.journeys = (((L.filter (fun r => r.nearestConsignee = k)).map
          (fun r => r.journeyId)).filter (fun s => s ≠ "")).foldl insertIfAbsent w.journeys)
      ∧ (lookupA m k = none →
        v.journeys = (((L.filter (fun r => r.nearestConsignee = k)).map
          (fun r => r.journeyId)).filter (fun s => s ≠ "")).foldl insertIfAbsent [])
  | [], m, hm, k, v, h => by
      simp only [List.foldl_nil] at h
      constructor
      · intro w hw
        rw [h] at hw
        cases Option.some.inj hw
        simp
      · intro hnone
        rw [h] at hnone
        exact Option.noConfusion hnone
  | r :: L, m, hm, k, v, h => by
      simp only [List.foldl_cons] at h
      by_cases hke : k = ""
      · subst hke
        have habs : lookupA (List.foldl consStep (consStep m r) L) "" = none :=
          consFold_empty_key L (consStep m r) (by
            unfold consStep
            by_cases hc : r.nearestConsignee = ""
            · rw [if_pos hc]; exact hm
            · rw [if_neg hc, lookupA_updateAssoc, if_neg hc]; exact hm)
        rw [h] at habs
        exact Option.noConfusion habs
      · have hm' : lookupA (consStep m r) "" = none := by
          unfold consStep
          by_cases hc : r.nearestConsignee = ""
          · rw [if_pos hc]; exact hm
          · rw [if_neg hc, lookupA_updateAssoc, if_neg hc]; exact hm
        have ih := consFold_lookup L (consStep m r) hm' k v h
        by_cases hc : r.nearestConsignee = ""
        · have hstep : consStep m r = m := by unfold consStep; rw [if_pos hc]
          rw [hstep] at ih
          have hfilter : (r :: L).filter (fun x => x.nearestConsignee = k) =
              L.filter (fun x => x.nearestConsignee = k) := by
            simp only [List.filter_cons]
            rw [if_neg (by simp [hc, Ne.symm hke])]
          constructor
          · intro w hw
            rw [hfilter]
            exact ih.1 w hw
          · intro hnone
            rw [hfilter]
            exact ih.2 hnone
        · have hstep : lookupA (consStep m r) k =
              if r.nearestConsignee = k then some (consUpd r (lookupA m r.nearestConsignee))
              else lookupA m k := by
            unfold consStep
            rw [if_neg hc]
            exact lookupA_updateAssoc m r.nearestConsignee k (consUpd r)
          by_cases hk : r.nearestConsignee = k
          · rw [if_pos hk, hk] at hstep
            have hfilter : (r :: L).filter (fun x => x.nearestConsignee = k) =
                r :: L.filter (fun x => x.nearestConsignee = k) := by
              simp only [List.filter_cons]
              rw [if_pos (by simp [hk])]
            have hjourneys : ∀ base : List String,
                (((r :: L.filter (fun x => x.nearestConsignee = k)).map
                  (fun x => x.journeyId)).filter (fun s => s ≠ "")).foldl
                  insertIfAbsent base =
                (((L.filter (fun x => x.nearestConsignee = k)).map
                  (fun x => x.journeyId)).filter (fun s => s ≠ "")).foldl
                  insertIfAbsent
                  (if r.journeyId ≠ "" then insertIfAbsent base r.journeyId else base) := by
              intro base
              by_cases hj : r.journeyId = ""
              · simp [List.map_cons, List.filter_cons, hj]
              · simp [List.map_cons, List.filter_cons, hj]
            constructor
            · intro w hw
              rw [hw] at hstep
              have hres := ih.1 (consUpd r (some w)) hstep
              rw [hfilter, hjourneys]
              have : (consUpd r (some w)).journeys =
                  if r.journeyId ≠ "" then insertIfAbsent w.journeys r.journeyId
                  else w.journeys := rfl
              rw [hres, this]
            · intro hnone
              rw [hnone] at hstep
              have hres := ih.1 (consUpd r none) hstep
              rw [hfilter, hjourneys]
              have : (consUpd r none).journeys =
                  if r.journeyId ≠ "" then insertIfAbsent [] r.journeyId
                  else [] := rfl
              rw [hres, this]
          · rw [if_neg hk] at hstep
            have hfilter : (r :: L).filter (fun x => x.nearestConsignee = k) =
                L.filter (fun x => x.nearestConsignee = k) := by
              simp only [List.filter_cons]
              rw [if_neg (by simp [hk])]
            constructor
            · intro w hw
              rw [hfilter]
              exact ih.1 w (hstep.trans hw)
            · intro hnone
              rw [hfilter]
              exact ih.2 (hstep.trans hnone)

/-- The consignee grouping map has distinct keys. -/
theorem consFold_nodup_keys :
    ∀ (L : List DiversionRow) (m : List (String × ConsAcc)),
      (m.map Prod.fst).Nodup → ((List.foldl consStep m L).map Prod.fst).Nodup
  | [], _, h => h
  | r :: L, m, h => by
      simp only [List.foldl_cons]
      apply consFold_nodup_keys L
      unfold consStep
      by_cases hc : r.nearestConsignee = ""
      · rw [if_pos hc]; exact h
      · rw [if_neg hc]
        exact nodup_keys_updateAssoc h _ _

/-- C8: every consignee group's repeat rate is (that group's distinct-journey
count ÷ the distinct-journey count across all anomaly rows of the input) ×
100 — with both counts set-based — and a zero denominator short-circuits to
0 rather than dividing by zero. -/
theorem c8_consignee_repeat_rate (rows : List DiversionRow) :
    totalAnomalyJourneys rows =
      ((((rows.filter (fun r => r.isPotentialDiversion)).map (fun r => r.journeyId)).filter
        (fun s => s ≠ "")).toFinset).card
    ∧ ∀ t, t ∈ calculateConsigneeTable rows →
        (t.repeatRate =
          (if 0 < totalAnomalyJourneys rows then
            JSNum.finite ((t.divertedJourneys : ℚ) / (totalAnomalyJourneys rows : ℚ) * 100)
          else JSNum.finite 0))
        ∧ t.divertedJourneys =
          (((((rows.filter (fun r => r.isPotentialDiversion)).filter
            (fun r => r.nearestConsignee = t.consignee)).map (fun r => r.journeyId)).filter
            (fun s => s ≠ "")).toFinset).card := by
  constructor
  · unfold totalAnomalyJourneys
    rw [List.card_toFinset]
  · intro t ht
    have ht2 : t ∈ ((rows.filter (fun r => r.isPotentialDiversion)).foldl consStep []).map
        (consRowOf (totalAnomalyJourneys rows)) := mem_stableSort.mp ht
    rcases List.mem_map.mp ht2 with ⟨p, hpmem, hpt⟩
    have hnodup : ((((rows.filter (fun r => r.isPotentialDiversion)).foldl
        consStep []).map Prod.fst)).Nodup :=
      consFold_nodup_keys _ [] (by simp)
    have hlook := lookupA_eq_of_mem hnodup hpmem
    have inv := (consFold_lookup _ [] rfl p.1 p.2 hlook).2 rfl
    subst hpt
    constructor
    · rfl
    · show p.2.journeys.length = _
      have hnod : p.2.journeys.Nodup := by
        rw [inv]
        exact nodup_foldl_insertIfAbsent _ [] (by simp)
      have hcons : (consRowOf (totalAnomalyJourneys rows) p).consignee = p.1 := rfl
      rw [← List.toFinset_card_of_nodup hnod, inv, toFinset_foldl_insertIfAbsent, hcons]
      simp

/-- First anomaly row of the C8 witness: journey J1, consignee X. -/
def c8w1 : DiversionRow :=
  { baseRow with
      journeyId := "J1"
      nearestConsignee := "X"
      diffInLead := some (JSNum.finite (-1))
      isPotentialDiversion := true
      shortLeadDistanceKm := some (JSNum.finite 1) }

/-- Second anomaly row of the C8 witness: journey J2, consignee X. -/
def c8w2 : DiversionRow :=
  { baseRow with
      journeyId := "J2"
      nearestConsignee := "X"
      diffInLead := some (JSNum.finite (-2))
      isPotentialDiversion := true
      shortLeadDistanceKm := some (JSNum.finite 2) }

/-- Third anomaly row of the C8 witness: journey J3, no consignee. -/
def c8w3 : DiversionRow :=
  { baseRow with
      journeyId := "J3"
      diffInLead := some (JSNum.finite (-3))
      isPotentialDiversion := true
      shortLeadDistanceKm := some (JSNum.finite 3) }

/-- Fourth anomaly row of the C8 witness: journey J4, no consignee. -/
def c8w4 : DiversionRow :=
  { baseRow with
      journeyId := "J4"
      diffInLead := some (JSNum.finite (-4))
      isPotentialDiversion := true
      shortLeadDistanceKm := some (JSNum.finite 4) }

/-- The four-row batch of the C8 witness. -/
def c8rows : List DiversionRow :=
  [c8w1, c8w2, c8w3, c8w4]

/-- The consignee-X table row of the C8 witness. -/
def c8row : ConsigneeTableRow :=
  ⟨"X", 2, JSNum.finite 0, JSNum.finite 50⟩

set_option maxRecDepth 100000 in
/-- Witness for C8: a consignee appearing in 2 of 4 distinct anomaly journeys
has repeat rate (2 / 4) × 100 = 50. -/
theorem c8_witness :
    c8row.repeatRate =
      (if 0 < totalAnomalyJourneys c8rows then
        JSNum.finite ((c8row.divertedJourneys : ℚ) / (totalAnomalyJourneys c8rows : ℚ) * 100)
      else JSNum.finite 0)
    ∧ c8row.repeatRate = JSNum.finite 50 := by
  have htab : calculateConsigneeTable c8rows = [c8row] := by with_unfolding_all rfl
  have hmem : c8row ∈ calculateConsigneeTable c8rows := by
    rw [htab]
    exact List.mem_singleton.mpr rfl
  exact ⟨((c8_consignee_repeat_rate c8rows).2 c8row hmem).1, rfl⟩

/-- C4: when a date bound is set (and parseable) and every other filter
criterion passes, `applyFilters` rejects a record whose date cannot be parsed
into a comparable instant, and otherwise includes it exactly when its instant
lies in the inclusive range from the lower bound to the end-of-day
(23:59:59.999) extension of the upper bound. -/
theorem c4_date_range_filter (now : Int) (f : FilterState) (r : DiversionRow)
    (hset : f.dateFrom ≠ "" ∨ f.dateTo ≠ "")
    (hfrom : f.dateFrom ≠ "" → (parseDate now f.dateFrom).isSome = true)
    (hto : f.dateTo ≠ "" → (parseDate now f.dateTo).isSome = true)
    (hdiv : f.onlyDiversions = true → r.isPotentialDiversion = true)
    (hbr : f.branch ≠ "" → r.branchName = f.branch)
    (hcon : f.consignee ≠ "" → r.nearestConsignee = f.consignee)
    (himp : minImpactReject f.minFreightImpact r.freightImpact = false) :
    (parseDate now (jsOrElse r.dateISO r.date) = none → applyFilters now [r] f = [])
    ∧ (∀ t, parseDate now (jsOrElse r.dateISO r.date) = some t →
        (applyFilters now [r] f = [r] ↔
          ((∀ fd, parseDate now f.dateFrom = some fd → fd ≤ t)
           ∧ (∀ td, parseDate now f.dateTo = some td → t ≤ endOfDay td)))) := by
  have hc1 : (f.onlyDiversions && !r.isPotentialDiversion) = false := by
    cases ho : f.onlyDiversions
    · rfl
    · simp [hdiv ho]
  have hc2 : (f.branch != "" && r.branchName != f.branch) = false := by
    by_cases hb : f.branch = ""
    · simp [hb]
    · simp [hbr hb]
  have hc3 : (f.consignee != "" && r.nearestConsignee != f.consignee) = false := by
    by_cases hb : f.consignee = ""
    · simp [hb]
    · simp [hcon hb]
  have hdate : (f.dateFrom != "" || f.dateTo != "") = true := by
    rcases hset with h | h <;> simp [h]
  have hrm : rowMatches now f r =
      (match parseDate now (jsOrElse r.dateISO r.date) with
       | none => false
       | some t =>
          !((f.dateFrom != "" &&
              (match parseDate now f.dateFrom with
               | some fd => decide (t < fd)
               | none => false)) ||
            (f.dateTo != "" &&
              (match parseDate now f.dateTo with
               | some td => decide (endOfDay td < t)
               | none => false)))) := by
    unfold rowMatches
    rw [if_neg (by simp [hc1]), if_neg (by simp [hc2]), if_neg (by simp [hc3]),
      if_neg (by simp [himp]), if_pos (by simp at hdate ⊢; exact hdate)]
  have happ : applyFilters now [r] f =
      if rowMatches now f r = true then [r] else [] := by
    show List.filter (rowMatches now f) [r] = _
    cases h : rowMatches now f r <;> simp [List.filter, h]
  constructor
  · intro hnone
    rw [happ, hrm, hnone]
    simp
  · intro t ht
    rw [happ, hrm, ht]
    have hfromIff : (f.dateFrom != "" &&
        (match parseDate now f.dateFrom with
         | some fd => decide (t < fd)
         | none => false)) = false ↔
        (∀ fd, parseDate now f.dateFrom = some fd → fd ≤ t) := by
      by_cases hb : f.dateFrom = ""
      · have hpn : parseDate now f.dateFrom = none := by
          rw [hb]
          rfl
        rw [hpn]
        simp [hb]
      · rcases Option.isSome_iff_exists.mp (hfrom hb) with ⟨fd, hfd⟩
        rw [hfd]
        constructor
        · intro h fd' hfd'
          cases Option.some.inj hfd'
          simp [hb] at h
          omega
        · intro h
          have := h fd rfl
          simp [hb]
          omega
    have htoIff : (f.dateTo != "" &&
        (match parseDate now f.dateTo with
         | some td => decide (endOfDay td < t)
         | none => false)) = false ↔
        (∀ td, parseDate now f.dateTo = some td → t ≤ endOfDay td) := by
      by_cases hb : f.dateTo = ""
      · have hpn : parseDate now f.dateTo = none := by
          rw [hb]
          rfl
        rw [hpn]
        simp [hb]
      · rcases Option.isSome_iff_exists.mp (hto hb) with ⟨td, htd⟩
        rw [htd]
        constructor
        · intro h td' htd'
          cases Option.some.inj htd'
          simp [hb] at h
          omega
        · intro h
          have := h td rfl
          simp [hb]
          omega
    constructor
    · intro heq
      by_cases hcond : (!((f.dateFrom != "" &&
          (match parseDate now f.dateFrom with
           | some fd => decide (t < fd)
           | none => false)) ||
          (f.dateTo != "" &&
            (match parseDate now f.dateTo with
             | some td => decide (endOfDay td < t)
             | none => false)))) = true
      · rw [Bool.not_eq_true', Bool.or_eq_false_iff] at hcond
        exact ⟨hfromIff.mp hcond.1, htoIff.mp hcond.2⟩
      · rw [if_neg hcond] at heq
        exact absurd heq (by simp)
    · intro ⟨h1, h2⟩
      rw [if_pos]
      rw [Bool.not_eq_true', Bool.or_eq_false_iff]
      exact ⟨hfromIff.mpr h1, htoIff.mpr h2⟩

/-- The concrete record of the C4 witness, dated 2026-02-05. -/
def c4row : DiversionRow :=
  { baseRow with
      dateISO := "2026-02-05T00:00:00.000Z"
      diffInLead := some (JSNum.finite (-3))
      isPotentialDiversion := true
      shortLeadDistanceKm := some (JSNum.finite 3) }

/-- The concrete filter state of the C4 witness: both date bounds set. -/
def c4filters : FilterState :=
  { dateFrom := "01/02/2026"
    dateTo := "2026-02-10"
    branch := ""
    consignee := ""
    minFreightImpact := none
    onlyDiversions := true }

set_option maxRecDepth 100000 in
/-- Witness for C4 at a concrete record and filter state with both bounds
set and parseable. -/
theorem c4_witness :
    applyFilters 0 [c4row] c4filters = [c4row] ↔
      ((∀ fd, parseDate 0 c4filters.dateFrom = some fd → fd ≤ 1770249600000)
       ∧ (∀ td, parseDate 0 c4filters.dateTo = some td →
          (1770249600000 : Int) ≤ endOfDay td)) :=
  (c4_date_range_filter 0 c4filters c4row (Or.inl (by decide)) (fun _ => by decide)
    (fun _ => by decide) (fun _ => by decide) (fun h => absurd h (by decide))
    (fun h => absurd h (by decide)) (by decide)).2 1770249600000 (by decide)
